import Mathlib

/-!
# HLtC combat-system character: attack chains, blocking and the per-frame resolver

A shallow embedding of `AHLtC_CombatSystemCharacter`
(`HLtC_CombatSystemCharacter.h` / `.cpp`).

Modelling conventions

* `float` / `double` quantities are exact rationals (`ℚ`); rounding, infinities and NaN are
  not modelled.  Float literals are read as the decimal they denote.
* `FString` fields are `String`; the comparisons of the source are against the literals the
  source itself writes.
* The chain indices are C++ `int`.  They start at 0 and are only ever reset to 0 or incremented
  under the guard `index < chainLength`, so they are modelled as `Nat`.
* Reading `LightAttackTimings[i]` / `HeavyAttackTimings[i]` outside the array is undefined
  behaviour; the model makes the read fallible (`Option`), and the handlers return
  `Option State`.
* The velocity read from the movement component in `SetControlStateDefaults` is engine state;
  it is an argument of the model.  `CameraBoom->TargetArmLength`, `CameraBoom->SocketOffset`
  and `GetCharacterMovement()->MaxWalkSpeed` are fields of the state record.
* `Move` and `Look` only forward input to the engine and write no field of the character, so
  they do not appear as transitions.
-/

namespace HLtC

/-! ## Engine types -/

/-- Engine 3-vector (`FVector`), component-wise exact. -/
structure FVector where
  X : ℚ
  Y : ℚ
  Z : ℚ
  deriving DecidableEq, Repr

namespace FVector

/-- Component-wise sum, `FVector::operator+`. -/
def add (a b : FVector) : FVector := ⟨a.X + b.X, a.Y + b.Y, a.Z + b.Z⟩

/-- Component-wise difference, `FVector::operator-`. -/
def sub (a b : FVector) : FVector := ⟨a.X - b.X, a.Y - b.Y, a.Z - b.Z⟩

/-- Unary minus, `FVector::operator-()`. -/
def neg (a : FVector) : FVector := ⟨-a.X, -a.Y, -a.Z⟩

/-- Scaling by a scalar, `FVector::operator*`. -/
def smul (k : ℚ) (a : FVector) : FVector := ⟨k * a.X, k * a.Y, k * a.Z⟩

/-- The zero vector. -/
def zero : FVector := ⟨0, 0, 0⟩

end FVector

/-- Scalar `FMath::Lerp(A, B, Alpha) = A + Alpha * (B - A)`; the engine does not clamp `Alpha`. -/
def Lerp (A B Alpha : ℚ) : ℚ := A + Alpha * (B - A)

/-- Vector `FMath::Lerp(A, B, Alpha) = A + Alpha * (B - A)`. -/
def LerpV (A B : FVector) (Alpha : ℚ) : FVector :=
  FVector.add A (FVector.smul Alpha (FVector.sub B A))

/-! ## Configuration constants (member initialisers of the header) -/

def MoveSpeed_Slow : ℚ := 200
def MoveSpeed_Action : ℚ := 400
def SprintSpeedAddition : ℚ := 200

def LightAttackChainLength : Nat := 5
def HeavyAttackChainLength : Nat := 3

def LightAttackTimings : List ℚ := [1, 7/10, 7/10, 7/10, 7/10]
def HeavyAttackTimings : List ℚ := [3/2, 1, 1]

def AttackBufferTimingMulti : ℚ := 1/2

/-- Array `float ArmLengths_Slow[3]`, read only at constant indices. -/
def ArmLengths_Slow : Fin 3 → ℚ
  | 0 => 175
  | 1 => 225
  | 2 => 275

def BoomSocketOffset_Slow : FVector := ⟨0, 50, 75⟩

/-- Array `float ArmLengths_Action[2]`, read only at constant indices. -/
def ArmLengths_Action : Fin 2 → ℚ
  | 0 => 300
  | 1 => 350

/-- Array `FVector BoomSocketOffset_Action[2]`, read only at constant indices. -/
def BoomSocketOffset_Action : Fin 2 → FVector
  | 0 => ⟨0, 0, 50⟩
  | 1 => ⟨0, 0, 100⟩

def CamShakeTimingConstraint : ℚ := 1/10

/-- Array `float CamShakeDeltaTimeDivision[2]`, read only at constant indices. -/
def CamShakeDeltaTimeDivision : Fin 2 → ℚ
  | 0 => 2
  | 1 => 6/5

/-! ## The state record -/

/-- The mutable fields of the character that the `.cpp` reads or writes. -/
structure State where
  PlayerControlState : String
  PlayerAction : String
  StaticAction : Bool
  StaticActionDurationTimer : ℚ
  CameraState : String
  isSprinting : Bool
  CurrentAttackType : String
  AttackMechanicsTrigger : Bool
  LightAttackIndex : Nat
  HeavyAttackIndex : Nat
  AdditionalAttackBuffer : Bool
  AdditionalAttackBufferTiming : ℚ
  Blocking : Bool
  DesiredArmLength : ℚ
  DesiredBoomSocketOffset : FVector
  CamShakeRising : Bool
  CamShakeTiming : ℚ
  /-- Field `CameraBoom->TargetArmLength`. -/
  TargetArmLength : ℚ
  /-- Field `CameraBoom->SocketOffset`. -/
  SocketOffset : FVector
  /-- Field `GetCharacterMovement()->MaxWalkSpeed`. -/
  MaxWalkSpeed : ℚ
  deriving DecidableEq, Repr

/-- The state after construction and `BeginPlay`: header initialisers, the constructor's
`MaxWalkSpeed = 200` and `TargetArmLength = 300`, the three tags and `isSprinting` written by
`BeginPlay`, and zero for the members without initialiser (actor memory is zero-filled). -/
def BeginPlay : State where
  PlayerControlState := "Slow"
  PlayerAction := "Idle"
  StaticAction := false
  StaticActionDurationTimer := 0
  CameraState := "Free"
  isSprinting := false
  CurrentAttackType := ""
  AttackMechanicsTrigger := false
  LightAttackIndex := 0
  HeavyAttackIndex := 0
  AdditionalAttackBuffer := false
  AdditionalAttackBufferTiming := 0
  Blocking := false
  DesiredArmLength := 0
  DesiredBoomSocketOffset := FVector.zero
  CamShakeRising := true
  CamShakeTiming := 0
  TargetArmLength := 300
  SocketOffset := FVector.zero
  MaxWalkSpeed := 200

/-! ## Input handlers -/

/-- Handler `SprintingFlag`: `isSprinting = Value.Get<bool>()`. -/
def SprintingFlag (s : State) (Value : Bool) : State :=
  { s with isSprinting := Value }

/-- Handler `LightAttack`: start the next light step, buffer the request, or ignore it.
`none` is an out-of-bounds read of `LightAttackTimings`. -/
def LightAttack (s : State) : Option State :=
  if s.HeavyAttackIndex = 0 ∧ s.LightAttackIndex < LightAttackChainLength then
    if s.StaticActionDurationTimer ≤ s.AdditionalAttackBufferTiming then
      match LightAttackTimings.get? s.LightAttackIndex with
      | none => none
      | some d =>
        some { s with
          StaticAction := true
          Blocking := false
          CurrentAttackType := "Light"
          AttackMechanicsTrigger := true
          PlayerAction := "LightAttack_" ++ toString s.LightAttackIndex
          StaticActionDurationTimer := d
          AdditionalAttackBufferTiming := d * AttackBufferTimingMulti
          AdditionalAttackBuffer := false
          LightAttackIndex := s.LightAttackIndex + 1 }
    else
      some { s with CurrentAttackType := "Light", AdditionalAttackBuffer := true }
  else
    some s

/-- Handler `HeavyAttack`: start the next heavy step, buffer the request, or ignore it.
`none` is an out-of-bounds read of `HeavyAttackTimings`. -/
def HeavyAttack (s : State) : Option State :=
  if s.LightAttackIndex = 0 ∧ s.HeavyAttackIndex < HeavyAttackChainLength then
    if s.StaticActionDurationTimer ≤ s.AdditionalAttackBufferTiming then
      match HeavyAttackTimings.get? s.HeavyAttackIndex with
      | none => none
      | some d =>
        some { s with
          StaticAction := true
          Blocking := false
          CurrentAttackType := "Heavy"
          AttackMechanicsTrigger := true
          PlayerAction := "HeavyAttack_" ++ toString s.HeavyAttackIndex
          StaticActionDurationTimer := d
          AdditionalAttackBufferTiming := d * AttackBufferTimingMulti
          AdditionalAttackBuffer := false
          HeavyAttackIndex := s.HeavyAttackIndex + 1 }
    else
      some { s with CurrentAttackType := "Heavy", AdditionalAttackBuffer := true }
  else
    some s

/-- Handler `Block`: outside a static action, `Blocking` follows the input value. -/
def Block (s : State) (Value : Bool) : State :=
  if !s.StaticAction then
    if Value then { s with Blocking := true } else { s with Blocking := false }
  else
    s

/-! ## The per-frame resolver -/

/-- Lines 121-137: derive `PlayerAction` from the velocity and the sprint flag. -/
def resolveAction (s : State) (Velocity : FVector) : State :=
  if Velocity = ⟨0, 0, 0⟩ then { s with PlayerAction := "Idle" }
  else if s.isSprinting then { s with PlayerAction := "Sprinting" }
  else { s with PlayerAction := "Moving" }

/-- Lines 139-173: per-mode move speed, target socket offset and target arm length. -/
def resolveMode (s : State) : State :=
  if s.PlayerControlState = "Slow" then
    let s := { s with
      MaxWalkSpeed := MoveSpeed_Slow
      DesiredBoomSocketOffset := BoomSocketOffset_Slow
      CamShakeTiming := 0 }
    if s.PlayerAction = "Idle" then { s with DesiredArmLength := ArmLengths_Slow 0 }
    else if s.PlayerAction = "Moving" then { s with DesiredArmLength := ArmLengths_Slow 1 }
    else if s.PlayerAction = "Sprinting" then { s with DesiredArmLength := ArmLengths_Slow 2 }
    else s
  else if s.PlayerControlState = "Action" then
    let s := { s with MaxWalkSpeed := MoveSpeed_Action }
    if s.CameraState = "Focus" then
      { s with
        DesiredArmLength := ArmLengths_Action 1
        DesiredBoomSocketOffset := BoomSocketOffset_Action 1 }
    else
      { s with
        DesiredArmLength := ArmLengths_Action 0
        DesiredBoomSocketOffset := BoomSocketOffset_Action 0 }
  else s

/-- Line 175: the sprint bonus on the move speed. -/
def resolveSprint (s : State) : State :=
  if s.isSprinting then { s with MaxWalkSpeed := s.MaxWalkSpeed + SprintSpeedAddition } else s

/-- Line 177: ease the boom length towards the target. -/
def resolveArm (s : State) (DeltaTime : ℚ) : State :=
  { s with TargetArmLength := Lerp s.TargetArmLength s.DesiredArmLength (DeltaTime * (5/2)) }

/-- Lines 181-185: the signed increment of `CamShakeTiming` for this frame. -/
def shakeIncrement (s : State) (DeltaTime : ℚ) : ℚ :=
  let newCamShakeTiming : ℚ := 0
  let newCamShakeTiming :=
    if s.PlayerAction = "Moving" then DeltaTime / CamShakeDeltaTimeDivision 0
    else newCamShakeTiming
  let newCamShakeTiming :=
    if s.PlayerAction = "Sprinting" then DeltaTime / CamShakeDeltaTimeDivision 1
    else newCamShakeTiming
  if !s.CamShakeRising then newCamShakeTiming * (-1) else newCamShakeTiming

/-- Line 189: clamp at the upper bound and turn the oscillator downwards. -/
def shakeClampHigh (s : State) : State :=
  if s.CamShakeTiming ≥ CamShakeTimingConstraint then
    { s with CamShakeTiming := CamShakeTimingConstraint, CamShakeRising := false }
  else s

/-- Line 190: clamp at the lower bound and turn the oscillator upwards. -/
def shakeClampLow (s : State) : State :=
  if s.CamShakeTiming ≤ -CamShakeTimingConstraint then
    { s with CamShakeTiming := -CamShakeTimingConstraint, CamShakeRising := true }
  else s

/-- Lines 192-194: the target offset raised by `(0,0,1)` while moving or sprinting. -/
def ShakenBoomSocketOffset (s : State) : FVector :=
  if s.PlayerAction = "Moving" ∨ s.PlayerAction = "Sprinting" then
    FVector.add s.DesiredBoomSocketOffset ⟨0, 0, 1⟩
  else s.DesiredBoomSocketOffset

/-- Lines 196-204: swing the target offset between the shaken offset and its negation, or
reset the oscillator when nothing is shaken. -/
def shakeTarget (s : State) : State :=
  if ShakenBoomSocketOffset s ≠ s.DesiredBoomSocketOffset then
    { s with
      DesiredBoomSocketOffset :=
        LerpV (ShakenBoomSocketOffset s) (FVector.neg (ShakenBoomSocketOffset s))
          s.CamShakeTiming }
  else
    { s with CamShakeTiming := 0 }

/-- Lines 179-205: the camera-shake oscillator and the perturbed target offset. -/
def resolveShake (s : State) (DeltaTime : ℚ) : State :=
  if s.PlayerControlState = "Action" ∧ s.CameraState = "Free" then
    shakeTarget (shakeClampLow (shakeClampHigh
      { s with CamShakeTiming := s.CamShakeTiming + shakeIncrement s DeltaTime }))
  else s

/-- Line 207: ease the socket offset towards the target. -/
def resolveOffset (s : State) (DeltaTime : ℚ) : State :=
  { s with SocketOffset := LerpV s.SocketOffset s.DesiredBoomSocketOffset (DeltaTime * 10) }

/-- Lines 119-208: the branch of `SetControlStateDefaults` taken when no static action runs. -/
def resolveFree (s : State) (DeltaTime : ℚ) (Velocity : FVector) : State :=
  resolveOffset
    (resolveShake (resolveArm (resolveSprint (resolveMode (resolveAction s Velocity))) DeltaTime)
      DeltaTime)
    DeltaTime

/-- Lines 210-238: the branch of `SetControlStateDefaults` taken during a static action. -/
def resolveStatic (s : State) (DeltaTime : ℚ) : Option State :=
  let s := { s with StaticActionDurationTimer := s.StaticActionDurationTimer - DeltaTime }
  if s.StaticActionDurationTimer ≤ 0 then
    some { s with
      StaticAction := false
      StaticActionDurationTimer := 0
      LightAttackIndex := 0
      HeavyAttackIndex := 0
      AdditionalAttackBufferTiming := 0
      AdditionalAttackBuffer := false }
  else if s.StaticActionDurationTimer ≤ s.AdditionalAttackBufferTiming
      ∧ s.AdditionalAttackBuffer = true then
    if s.CurrentAttackType = "Light" then LightAttack s
    else if s.CurrentAttackType = "Heavy" then HeavyAttack s
    else some s
  else some s

/-- Function `SetControlStateDefaults(DeltaTime)`; `Velocity` is the movement component's velocity. -/
def SetControlStateDefaults (s : State) (DeltaTime : ℚ) (Velocity : FVector) : Option State :=
  if !s.StaticAction then some (resolveFree s DeltaTime Velocity)
  else resolveStatic s DeltaTime

/-- Function `Tick(DeltaTime)`: runs `SetControlStateDefaults`, then the engine's own tick. -/
def Tick (s : State) (DeltaTime : ℚ) (Velocity : FVector) : Option State :=
  SetControlStateDefaults s DeltaTime Velocity

/-! ## Runs -/

/-- A run of consecutive `Tick`s, each with its frame time and the velocity read in that frame. -/
def Ticks (s : State) : List (ℚ × FVector) → Option State
  | [] => some s
  | f :: fs =>
    match Tick s f.1 f.2 with
    | none => none
    | some s' => Ticks s' fs

/-- States reachable from `s₀` by `Tick` and the input handlers. -/
inductive ReachableFrom (s₀ : State) : State → Prop
  | init : ReachableFrom s₀ s₀
  | tick {s s' : State} (dt : ℚ) (v : FVector) :
      ReachableFrom s₀ s → Tick s dt v = some s' → ReachableFrom s₀ s'
  | light {s s' : State} : ReachableFrom s₀ s → LightAttack s = some s' → ReachableFrom s₀ s'
  | heavy {s s' : State} : ReachableFrom s₀ s → HeavyAttack s = some s' → ReachableFrom s₀ s'
  | block {s : State} (b : Bool) : ReachableFrom s₀ s → ReachableFrom s₀ (Block s b)
  | sprint {s : State} (b : Bool) : ReachableFrom s₀ s → ReachableFrom s₀ (SprintingFlag s b)

/-- States reachable from the spawn state. -/
def Reachable (s : State) : Prop := ReachableFrom BeginPlay s

/-! ## Views and invariants -/

/-- The fields the attack and block logic reads or writes; the free-movement branch of the
resolver leaves all of them alone. -/
def combat (s : State) : Bool × ℚ × Nat × Nat × Bool × ℚ × String × Bool × Bool × Bool :=
  (s.StaticAction, s.StaticActionDurationTimer, s.LightAttackIndex, s.HeavyAttackIndex,
    s.AdditionalAttackBuffer, s.AdditionalAttackBufferTiming, s.CurrentAttackType,
    s.AttackMechanicsTrigger, s.Blocking, s.isSprinting)

/-- The state a started step of the light chain produces, `d` being the step's duration. -/
def lightStarted (s : State) (d : ℚ) : State :=
  { s with
    StaticAction := true
    Blocking := false
    CurrentAttackType := "Light"
    AttackMechanicsTrigger := true
    PlayerAction := "LightAttack_" ++ toString s.LightAttackIndex
    StaticActionDurationTimer := d
    AdditionalAttackBufferTiming := d * AttackBufferTimingMulti
    AdditionalAttackBuffer := false
    LightAttackIndex := s.LightAttackIndex + 1 }

/-- The state a started step of the heavy chain produces, `d` being the step's duration. -/
def heavyStarted (s : State) (d : ℚ) : State :=
  { s with
    StaticAction := true
    Blocking := false
    CurrentAttackType := "Heavy"
    AttackMechanicsTrigger := true
    PlayerAction := "HeavyAttack_" ++ toString s.HeavyAttackIndex
    StaticActionDurationTimer := d
    AdditionalAttackBufferTiming := d * AttackBufferTimingMulti
    AdditionalAttackBuffer := false
    HeavyAttackIndex := s.HeavyAttackIndex + 1 }

/-- The state at the end of a static action (lines 217-223). -/
def staticEnded (s : State) : State :=
  { s with
    StaticAction := false
    StaticActionDurationTimer := 0
    LightAttackIndex := 0
    HeavyAttackIndex := 0
    AdditionalAttackBufferTiming := 0
    AdditionalAttackBuffer := false }

/-- The state after line 212: the timer counted down by the frame time. -/
def countdown (s : State) (DeltaTime : ℚ) : State :=
  { s with StaticActionDurationTimer := s.StaticActionDurationTimer - DeltaTime }

/-- The state right after a light attack is pressed at spawn: step 0 of the light chain. -/
def lightStep0 : State := lightStarted BeginPlay 1

/-- The state right after a heavy attack is pressed at spawn: step 0 of the heavy chain. -/
def heavyStep0 : State := heavyStarted BeginPlay (3/2)

/-- The state after a further light request that arrives too early: the request is buffered. -/
def lightStep0Buffered : State :=
  { lightStep0 with CurrentAttackType := "Light", AdditionalAttackBuffer := true }

/-- Every frame of the run leaves the counted-down timer strictly above the buffer window. -/
def StaysAbove : State → List (ℚ × FVector) → Prop
  | _, [] => True
  | s, f :: fs =>
    s.AdditionalAttackBufferTiming < s.StaticActionDurationTimer - f.1 ∧
      match Tick s f.1 f.2 with
      | none => False
      | some s' => StaysAbove s' fs

/-- The fields the camera and locomotion resolver writes, together with the two mode tags; the
attack and block logic leaves all of them alone. -/
def camera (s : State) : ℚ × Bool × ℚ × ℚ × FVector × FVector × ℚ × String × String :=
  (s.CamShakeTiming, s.CamShakeRising, s.TargetArmLength, s.DesiredArmLength, s.SocketOffset,
    s.DesiredBoomSocketOffset, s.MaxWalkSpeed, s.PlayerControlState, s.CameraState)

/-- The arm length lines 139-173 select for a frame with velocity `Velocity`. -/
def targetArm (s : State) (Velocity : FVector) : ℚ :=
  (resolveMode (resolveAction s Velocity)).DesiredArmLength

/-- The state after `n` consecutive frames outside a static action, all with the same frame
time and velocity. -/
def freeRun (s : State) (DeltaTime : ℚ) (Velocity : FVector) : Nat → State
  | 0 => s
  | n + 1 => resolveFree (freeRun s DeltaTime Velocity n) DeltaTime Velocity

/-- The spawn state switched to the "Action" control state (camera still "Free"). -/
def actionFree : State := { BeginPlay with PlayerControlState := "Action" }

/-- The spawn state switched to the "Action" control state with the camera locked on. -/
def actionFocus : State :=
  { BeginPlay with PlayerControlState := "Action", CameraState := "Focus" }

/-- The state on entry to the shake block (lines 119-177 done, line 179 next). -/
def beforeShake (s : State) (DeltaTime : ℚ) (Velocity : FVector) : State :=
  resolveArm (resolveSprint (resolveMode (resolveAction s Velocity))) DeltaTime

/-- The shake timing right after line 187 has added this frame's increment. -/
def incrementedTiming (s : State) (DeltaTime : ℚ) (Velocity : FVector) : ℚ :=
  s.CamShakeTiming + shakeIncrement (resolveAction s Velocity) DeltaTime

/-- The shaken offset of lines 192-194 in the "Action" control state with a camera that is not
locked on: the table entry the code selects there, raised by `(0,0,1)`. -/
def shakenAction : FVector := FVector.add (BoomSocketOffset_Action 0) ⟨0, 0, 1⟩

/-- The buffered state of light step 0 two fifths of a second later (timer 0.6, window 0.5). -/
def lightStep0Late : State := countdown lightStep0Buffered (2 / 5)

/-- The shake timing lies within the constraint. -/
def ShakeBounded (s : State) : Prop :=
  -CamShakeTimingConstraint ≤ s.CamShakeTiming ∧ s.CamShakeTiming ≤ CamShakeTimingConstraint

/-- The invariant of the attack buffer: a static action belongs to an active chain, and a
buffered request is for the chain that is active and not exhausted. -/
structure BufferInv (s : State) : Prop where
  active : s.StaticAction = true → 0 < s.LightAttackIndex ∨ 0 < s.HeavyAttackIndex
  pending : s.AdditionalAttackBuffer = true →
    (s.CurrentAttackType = "Light" ∧ 0 < s.LightAttackIndex ∧
        s.LightAttackIndex < LightAttackChainLength ∧ s.HeavyAttackIndex = 0) ∨
    (s.CurrentAttackType = "Heavy" ∧ 0 < s.HeavyAttackIndex ∧
        s.HeavyAttackIndex < HeavyAttackChainLength ∧ s.LightAttackIndex = 0)

/-- The invariant of the attack and block logic. -/
structure Inv (s : State) : Prop where
  excl : s.LightAttackIndex = 0 ∨ s.HeavyAttackIndex = 0
  light_le : s.LightAttackIndex ≤ LightAttackChainLength
  heavy_le : s.HeavyAttackIndex ≤ HeavyAttackChainLength
  static_iff : s.StaticAction = true ↔ 0 < s.StaticActionDurationTimer
  timer_nonneg : 0 ≤ s.StaticActionDurationTimer
  idle : s.StaticAction = false →
    s.LightAttackIndex = 0 ∧ s.HeavyAttackIndex = 0 ∧ s.AdditionalAttackBufferTiming = 0
  block : s.Blocking = true → s.StaticAction = false
  window_nonneg : 0 ≤ s.AdditionalAttackBufferTiming

/-! ## Basic facts about the handlers -/

theorem LightAttackTimings_pos {i : Nat} {d : ℚ} (h : LightAttackTimings.get? i = some d) :
    0 < d := by
  rcases i with _ | _ | _ | _ | _ | i <;> simp [LightAttackTimings] at h <;> subst h <;> norm_num

theorem HeavyAttackTimings_pos {i : Nat} {d : ℚ} (h : HeavyAttackTimings.get? i = some d) :
    0 < d := by
  rcases i with _ | _ | _ | i <;> simp [HeavyAttackTimings] at h <;> subst h <;> norm_num

theorem LightAttackTimings_get {i : Nat} (h : i < LightAttackChainLength) :
    ∃ d, LightAttackTimings.get? i = some d := by
  rcases i with _ | _ | _ | _ | _ | i
  · exact ⟨_, rfl⟩
  · exact ⟨_, rfl⟩
  · exact ⟨_, rfl⟩
  · exact ⟨_, rfl⟩
  · exact ⟨_, rfl⟩
  · unfold LightAttackChainLength at h; omega

theorem HeavyAttackTimings_get {i : Nat} (h : i < HeavyAttackChainLength) :
    ∃ d, HeavyAttackTimings.get? i = some d := by
  rcases i with _ | _ | _ | i
  · exact ⟨_, rfl⟩
  · exact ⟨_, rfl⟩
  · exact ⟨_, rfl⟩
  · unfold HeavyAttackChainLength at h; omega

theorem LightAttack_ignored {s : State}
    (h : ¬(s.HeavyAttackIndex = 0 ∧ s.LightAttackIndex < LightAttackChainLength)) :
    LightAttack s = some s := by
  unfold LightAttack; rw [if_neg h]

theorem HeavyAttack_ignored {s : State}
    (h : ¬(s.LightAttackIndex = 0 ∧ s.HeavyAttackIndex < HeavyAttackChainLength)) :
    HeavyAttack s = some s := by
  unfold HeavyAttack; rw [if_neg h]

theorem LightAttack_buffered {s : State} (hH : s.HeavyAttackIndex = 0)
    (hL : s.LightAttackIndex < LightAttackChainLength)
    (ht : ¬ s.StaticActionDurationTimer ≤ s.AdditionalAttackBufferTiming) :
    LightAttack s = some { s with CurrentAttackType := "Light", AdditionalAttackBuffer := true } := by
  unfold LightAttack; rw [if_pos ⟨hH, hL⟩, if_neg ht]

theorem HeavyAttack_buffered {s : State} (hL : s.LightAttackIndex = 0)
    (hH : s.HeavyAttackIndex < HeavyAttackChainLength)
    (ht : ¬ s.StaticActionDurationTimer ≤ s.AdditionalAttackBufferTiming) :
    HeavyAttack s = some { s with CurrentAttackType := "Heavy", AdditionalAttackBuffer := true } := by
  unfold HeavyAttack; rw [if_pos ⟨hL, hH⟩, if_neg ht]

theorem LightAttack_started {s : State} (hH : s.HeavyAttackIndex = 0)
    (hL : s.LightAttackIndex < LightAttackChainLength)
    (ht : s.StaticActionDurationTimer ≤ s.AdditionalAttackBufferTiming) :
    ∃ d, LightAttackTimings.get? s.LightAttackIndex = some d ∧ 0 < d ∧
      LightAttack s = some (lightStarted s d) := by
  obtain ⟨d, hd⟩ := LightAttackTimings_get hL
  refine ⟨d, hd, LightAttackTimings_pos hd, ?_⟩
  unfold LightAttack; rw [if_pos ⟨hH, hL⟩, if_pos ht, hd]; rfl

theorem HeavyAttack_started {s : State} (hL : s.LightAttackIndex = 0)
    (hH : s.HeavyAttackIndex < HeavyAttackChainLength)
    (ht : s.StaticActionDurationTimer ≤ s.AdditionalAttackBufferTiming) :
    ∃ d, HeavyAttackTimings.get? s.HeavyAttackIndex = some d ∧ 0 < d ∧
      HeavyAttack s = some (heavyStarted s d) := by
  obtain ⟨d, hd⟩ := HeavyAttackTimings_get hH
  refine ⟨d, hd, HeavyAttackTimings_pos hd, ?_⟩
  unfold HeavyAttack; rw [if_pos ⟨hL, hH⟩, if_pos ht, hd]; rfl

/-- Every light-attack request is one of: ignored, buffered, or a started step. -/
theorem LightAttack_cases (s : State) :
    LightAttack s = some s ∨
    LightAttack s = some { s with CurrentAttackType := "Light", AdditionalAttackBuffer := true } ∨
    ∃ d, s.HeavyAttackIndex = 0 ∧ s.LightAttackIndex < LightAttackChainLength ∧ 0 < d ∧
      LightAttack s = some (lightStarted s d) := by
  by_cases h : s.HeavyAttackIndex = 0 ∧ s.LightAttackIndex < LightAttackChainLength
  · by_cases ht : s.StaticActionDurationTimer ≤ s.AdditionalAttackBufferTiming
    · obtain ⟨d, -, hd, he⟩ := LightAttack_started h.1 h.2 ht
      exact Or.inr (Or.inr ⟨d, h.1, h.2, hd, he⟩)
    · exact Or.inr (Or.inl (LightAttack_buffered h.1 h.2 ht))
  · exact Or.inl (LightAttack_ignored h)

/-- Every heavy-attack request is one of: ignored, buffered, or a started step. -/
theorem HeavyAttack_cases (s : State) :
    HeavyAttack s = some s ∨
    HeavyAttack s = some { s with CurrentAttackType := "Heavy", AdditionalAttackBuffer := true } ∨
    ∃ d, s.LightAttackIndex = 0 ∧ s.HeavyAttackIndex < HeavyAttackChainLength ∧ 0 < d ∧
      HeavyAttack s = some (heavyStarted s d) := by
  by_cases h : s.LightAttackIndex = 0 ∧ s.HeavyAttackIndex < HeavyAttackChainLength
  · by_cases ht : s.StaticActionDurationTimer ≤ s.AdditionalAttackBufferTiming
    · obtain ⟨d, -, hd, he⟩ := HeavyAttack_started h.1 h.2 ht
      exact Or.inr (Or.inr ⟨d, h.1, h.2, hd, he⟩)
    · exact Or.inr (Or.inl (HeavyAttack_buffered h.1 h.2 ht))
  · exact Or.inl (HeavyAttack_ignored h)

/-- The free-movement branch of the resolver writes none of the combat fields. -/
theorem combat_resolveFree (s : State) (dt : ℚ) (v : FVector) :
    combat (resolveFree s dt v) = combat s := by
  have h1 : ∀ s v, combat (resolveAction s v) = combat s := by
    intro s v; unfold resolveAction; split_ifs <;> rfl
  have h2 : ∀ s, combat (resolveMode s) = combat s := by
    intro s; unfold resolveMode; simp only []; split_ifs <;> rfl
  have h3 : ∀ s, combat (resolveSprint s) = combat s := by
    intro s; unfold resolveSprint; split_ifs <;> rfl
  have h4a : ∀ s, combat (shakeClampHigh s) = combat s := by
    intro s; unfold shakeClampHigh; split_ifs <;> rfl
  have h4b : ∀ s, combat (shakeClampLow s) = combat s := by
    intro s; unfold shakeClampLow; split_ifs <;> rfl
  have h4c : ∀ s, combat (shakeTarget s) = combat s := by
    intro s; unfold shakeTarget; split_ifs <;> rfl
  have h4 : ∀ s dt, combat (resolveShake s dt) = combat s := by
    intro s dt; unfold resolveShake; split_ifs
    · rw [h4c, h4b, h4a]; rfl
    · rfl
  unfold resolveFree
  rw [show ∀ s dt, combat (resolveOffset s dt) = combat s from fun _ _ => rfl, h4,
    show ∀ s dt, combat (resolveArm s dt) = combat s from fun _ _ => rfl, h3, h2, h1]

theorem Block_free {s : State} (h : s.StaticAction = false) (b : Bool) :
    Block s b = { s with Blocking := b } := by
  unfold Block
  rw [if_pos (by simp [h])]
  cases b <;> rfl

theorem Block_static {s : State} (h : s.StaticAction = true) (b : Bool) : Block s b = s := by
  unfold Block
  rw [if_neg (by simp [h])]

/-! ## The four outcomes of a `Tick` -/

theorem Tick_free {s : State} (h : s.StaticAction = false) (dt : ℚ) (v : FVector) :
    Tick s dt v = some (resolveFree s dt v) := by
  simp [Tick, SetControlStateDefaults, h]

theorem Tick_ended {s : State} (h : s.StaticAction = true) {dt : ℚ}
    (ht : s.StaticActionDurationTimer - dt ≤ 0) (v : FVector) :
    Tick s dt v = some (staticEnded s) := by
  unfold Tick SetControlStateDefaults
  rw [if_neg (by simp [h])]
  unfold resolveStatic; dsimp only
  rw [if_pos ht]; rfl

theorem Tick_running {s : State} (h : s.StaticAction = true) {dt : ℚ}
    (ht : 0 < s.StaticActionDurationTimer - dt)
    (hb : ¬(s.StaticActionDurationTimer - dt ≤ s.AdditionalAttackBufferTiming
      ∧ s.AdditionalAttackBuffer = true)) (v : FVector) :
    Tick s dt v = some (countdown s dt) := by
  unfold Tick SetControlStateDefaults
  rw [if_neg (by simp [h])]
  unfold resolveStatic; dsimp only
  rw [if_neg (not_le.mpr ht), if_neg hb]; rfl

theorem Tick_fired {s : State} (h : s.StaticAction = true) {dt : ℚ}
    (ht : 0 < s.StaticActionDurationTimer - dt)
    (hw : s.StaticActionDurationTimer - dt ≤ s.AdditionalAttackBufferTiming)
    (hb : s.AdditionalAttackBuffer = true) (v : FVector) :
    Tick s dt v =
      if s.CurrentAttackType = "Light" then LightAttack (countdown s dt)
      else if s.CurrentAttackType = "Heavy" then HeavyAttack (countdown s dt)
      else some (countdown s dt) := by
  unfold Tick SetControlStateDefaults
  rw [if_neg (by simp [h])]
  unfold resolveStatic; dsimp only
  rw [if_neg (not_le.mpr ht), if_pos ⟨hw, hb⟩]; rfl

/-! ## The invariant holds in every reachable state -/

theorem Inv_BeginPlay : Inv BeginPlay := by
  constructor <;> simp [BeginPlay, LightAttackChainLength, HeavyAttackChainLength]

theorem Inv_of_combat {s s' : State} (h : combat s' = combat s) (hi : Inv s) : Inv s' := by
  simp only [combat, Prod.mk.injEq] at h
  obtain ⟨h1, h2, h3, h4, -, h6, -, -, h9, -⟩ := h
  obtain ⟨a, b, c, d, e, f, g, w⟩ := hi
  constructor
  · rw [h3, h4]; exact a
  · rw [h3]; exact b
  · rw [h4]; exact c
  · rw [h1, h2]; exact d
  · rw [h2]; exact e
  · rw [h1, h3, h4, h6]; exact f
  · rw [h1, h9]; exact g
  · rw [h6]; exact w

theorem Inv_lightStarted {s : State} (hi : Inv s) (hH : s.HeavyAttackIndex = 0)
    (hL : s.LightAttackIndex < LightAttackChainLength) {d : ℚ} (hd : 0 < d) :
    Inv (lightStarted s d) := by
  constructor
  · exact Or.inr hH
  · exact hL
  · exact hi.heavy_le
  · exact ⟨fun _ => hd, fun _ => rfl⟩
  · exact hd.le
  · intro h; exact absurd h (by simp [lightStarted])
  · intro h; exact absurd h (by simp [lightStarted])
  · exact mul_nonneg hd.le (by norm_num [AttackBufferTimingMulti])

theorem Inv_heavyStarted {s : State} (hi : Inv s) (hL : s.LightAttackIndex = 0)
    (hH : s.HeavyAttackIndex < HeavyAttackChainLength) {d : ℚ} (hd : 0 < d) :
    Inv (heavyStarted s d) := by
  constructor
  · exact Or.inl hL
  · exact hi.light_le
  · exact hH
  · exact ⟨fun _ => hd, fun _ => rfl⟩
  · exact hd.le
  · intro h; exact absurd h (by simp [heavyStarted])
  · intro h; exact absurd h (by simp [heavyStarted])
  · exact mul_nonneg hd.le (by norm_num [AttackBufferTimingMulti])

theorem Inv_staticEnded (s : State) : Inv (staticEnded s) := by
  constructor <;> simp [staticEnded]

theorem Inv_requested {s : State} (hi : Inv s) (ty : String) :
    Inv { s with CurrentAttackType := ty, AdditionalAttackBuffer := true } :=
  ⟨hi.excl, hi.light_le, hi.heavy_le, hi.static_iff, hi.timer_nonneg, hi.idle, hi.block,
    hi.window_nonneg⟩

theorem Inv_countdown {s : State} (hi : Inv s) (h : s.StaticAction = true) {dt : ℚ}
    (ht : 0 < s.StaticActionDurationTimer - dt) : Inv (countdown s dt) := by
  constructor
  · exact hi.excl
  · exact hi.light_le
  · exact hi.heavy_le
  · exact ⟨fun _ => ht, fun _ => h⟩
  · exact ht.le
  · intro h'; exact absurd (h'.symm.trans h) (by simp)
  · exact hi.block
  · exact hi.window_nonneg

theorem Inv_LightAttack {s s' : State} (hi : Inv s) (h : LightAttack s = some s') : Inv s' := by
  rcases LightAttack_cases s with e | e | ⟨d, hH, hL, hd, e⟩ <;>
    rw [e] at h <;> cases h
  · exact hi
  · exact Inv_requested hi _
  · exact Inv_lightStarted hi hH hL hd

theorem Inv_HeavyAttack {s s' : State} (hi : Inv s) (h : HeavyAttack s = some s') : Inv s' := by
  rcases HeavyAttack_cases s with e | e | ⟨d, hL, hH, hd, e⟩ <;>
    rw [e] at h <;> cases h
  · exact hi
  · exact Inv_requested hi _
  · exact Inv_heavyStarted hi hL hH hd

theorem Inv_Block {s : State} (hi : Inv s) (b : Bool) : Inv (Block s b) := by
  rcases Bool.eq_false_or_eq_true s.StaticAction with hs | hs
  · rw [Block_static hs]; exact hi
  · rw [Block_free hs]
    exact ⟨hi.excl, hi.light_le, hi.heavy_le, hi.static_iff, hi.timer_nonneg, hi.idle,
      fun _ => hs, hi.window_nonneg⟩

theorem Inv_SprintingFlag {s : State} (hi : Inv s) (b : Bool) : Inv (SprintingFlag s b) :=
  ⟨hi.excl, hi.light_le, hi.heavy_le, hi.static_iff, hi.timer_nonneg, hi.idle, hi.block,
    hi.window_nonneg⟩

theorem Inv_Tick {s s' : State} (hi : Inv s) {dt : ℚ} {v : FVector}
    (h : Tick s dt v = some s') : Inv s' := by
  rcases Bool.eq_false_or_eq_true s.StaticAction with hs | hs
  swap
  · rw [Tick_free hs] at h; cases h
    exact Inv_of_combat (combat_resolveFree s dt v) hi
  · by_cases ht : s.StaticActionDurationTimer - dt ≤ 0
    · rw [Tick_ended hs ht] at h; cases h
      exact Inv_staticEnded s
    · have ht' : 0 < s.StaticActionDurationTimer - dt := not_le.mp ht
      have hc : Inv (countdown s dt) := Inv_countdown hi hs ht'
      by_cases hb : s.StaticActionDurationTimer - dt ≤ s.AdditionalAttackBufferTiming
          ∧ s.AdditionalAttackBuffer = true
      · rw [Tick_fired hs ht' hb.1 hb.2] at h
        split_ifs at h
        · exact Inv_LightAttack hc h
        · exact Inv_HeavyAttack hc h
        · cases h; exact hc
      · rw [Tick_running hs ht' hb] at h; cases h
        exact hc

theorem Inv_of_reachable {s : State} (h : Reachable s) : Inv s := by
  induction h with
  | init => exact Inv_BeginPlay
  | tick dt v _ h ih => exact Inv_Tick ih h
  | light _ h ih => exact Inv_LightAttack ih h
  | heavy _ h ih => exact Inv_HeavyAttack ih h
  | block b _ ih => exact Inv_Block ih b
  | sprint b _ ih => exact Inv_SprintingFlag ih b

/-- No call can fail: the timing arrays are only read under the chain-length guard. -/
theorem LightAttack_total (s : State) : ∃ s', LightAttack s = some s' := by
  rcases LightAttack_cases s with e | e | ⟨d, -, -, -, e⟩ <;> exact ⟨_, e⟩

theorem HeavyAttack_total (s : State) : ∃ s', HeavyAttack s = some s' := by
  rcases HeavyAttack_cases s with e | e | ⟨d, -, -, -, e⟩ <;> exact ⟨_, e⟩

theorem Tick_total (s : State) (dt : ℚ) (v : FVector) : ∃ s', Tick s dt v = some s' := by
  rcases Bool.eq_false_or_eq_true s.StaticAction with hs | hs
  swap
  · exact ⟨_, Tick_free hs dt v⟩
  · by_cases ht : s.StaticActionDurationTimer - dt ≤ 0
    · exact ⟨_, Tick_ended hs ht v⟩
    · have ht' : 0 < s.StaticActionDurationTimer - dt := not_le.mp ht
      by_cases hb : s.StaticActionDurationTimer - dt ≤ s.AdditionalAttackBufferTiming
          ∧ s.AdditionalAttackBuffer = true
      · rw [Tick_fired hs ht' hb.1 hb.2]
        split_ifs
        · exact LightAttack_total _
        · exact HeavyAttack_total _
        · exact ⟨_, rfl⟩
      · exact ⟨_, Tick_running hs ht' hb v⟩

theorem Ticks_total (s : State) (fs : List (ℚ × FVector)) : ∃ s', Ticks s fs = some s' := by
  induction fs generalizing s with
  | nil => exact ⟨s, rfl⟩
  | cons f fs ih =>
    obtain ⟨s1, h1⟩ := Tick_total s f.1 f.2
    obtain ⟨s2, h2⟩ := ih s1
    exact ⟨s2, by simp [Ticks, h1, h2]⟩

/-! ## Runs of frames -/

theorem Ticks_cons {s s1 : State} {f : ℚ × FVector} (h : Tick s f.1 f.2 = some s1)
    (fs : List (ℚ × FVector)) : Ticks s (f :: fs) = Ticks s1 fs := by
  simp [Ticks, h]

/-- Frames outside a static action never touch the combat fields. -/
theorem Ticks_idle {s s' : State} (hs : s.StaticAction = false) {fs : List (ℚ × FVector)}
    (h : Ticks s fs = some s') : combat s' = combat s := by
  induction fs generalizing s with
  | nil => cases h; rfl
  | cons f fs ih =>
    rw [Ticks_cons (Tick_free hs f.1 f.2)] at h
    have hc := combat_resolveFree s f.1 f.2
    have hs1 : (resolveFree s f.1 f.2).StaticAction = false := by
      have := congrArg Prod.fst hc
      exact this.trans hs
    exact (ih hs1 h).trans hc

/-- A step with nothing buffered either is still the same step or has ended. -/
theorem Ticks_unbuffered {s s' : State} (hs : s.StaticAction = true)
    (hb : s.AdditionalAttackBuffer = false) {fs : List (ℚ × FVector)}
    (h : Ticks s fs = some s') :
    (s'.StaticAction = true ∧ s'.LightAttackIndex = s.LightAttackIndex ∧
      s'.HeavyAttackIndex = s.HeavyAttackIndex ∧ s'.PlayerAction = s.PlayerAction ∧
      s'.AdditionalAttackBuffer = false) ∨
    (s'.StaticAction = false ∧ s'.LightAttackIndex = 0 ∧ s'.HeavyAttackIndex = 0 ∧
      s'.StaticActionDurationTimer = 0) := by
  induction fs generalizing s with
  | nil => cases h; exact Or.inl ⟨hs, rfl, rfl, rfl, hb⟩
  | cons f fs ih =>
    by_cases ht : s.StaticActionDurationTimer - f.1 ≤ 0
    · rw [Ticks_cons (Tick_ended hs ht f.2)] at h
      have hc := Ticks_idle (s := staticEnded s) rfl h
      simp only [combat, Prod.mk.injEq] at hc
      obtain ⟨h1, h2, h3, h4, -⟩ := hc
      exact Or.inr ⟨h1, h3, h4, h2⟩
    · have ht' : 0 < s.StaticActionDurationTimer - f.1 := not_le.mp ht
      have hn : ¬(s.StaticActionDurationTimer - f.1 ≤ s.AdditionalAttackBufferTiming
          ∧ s.AdditionalAttackBuffer = true) := by
        rw [hb]; simp
      rw [Ticks_cons (Tick_running hs ht' hn f.2)] at h
      exact ih (s := countdown s f.1) hs hb h

/-- While the timer stays above the window, a run only counts the timer down. -/
theorem Ticks_above {s : State} (hs : s.StaticAction = true)
    (hw : 0 ≤ s.AdditionalAttackBufferTiming) {fs : List (ℚ × FVector)}
    (h : StaysAbove s fs) :
    ∃ p, Ticks s fs = some p ∧ p.StaticAction = true ∧
      p.LightAttackIndex = s.LightAttackIndex ∧ p.HeavyAttackIndex = s.HeavyAttackIndex ∧
      p.PlayerAction = s.PlayerAction ∧ p.AdditionalAttackBuffer = s.AdditionalAttackBuffer ∧
      p.CurrentAttackType = s.CurrentAttackType ∧
      p.AdditionalAttackBufferTiming = s.AdditionalAttackBufferTiming := by
  induction fs generalizing s with
  | nil => exact ⟨s, rfl, hs, rfl, rfl, rfl, rfl, rfl, rfl⟩
  | cons f fs ih =>
    obtain ⟨ha, hrest⟩ := h
    have ht' : 0 < s.StaticActionDurationTimer - f.1 := lt_of_le_of_lt hw ha
    have hn : ¬(s.StaticActionDurationTimer - f.1 ≤ s.AdditionalAttackBufferTiming
        ∧ s.AdditionalAttackBuffer = true) := fun hc => absurd ha (not_lt.mpr hc.1)
    have e := Tick_running hs ht' hn f.2
    rw [e] at hrest
    obtain ⟨p, hp, h1, h2, h3, h4, h5, h6, h7⟩ := ih (s := countdown s f.1) hs hw hrest
    exact ⟨p, by rw [Ticks_cons e]; exact hp, h1, h2, h3, h4, h5, h6, h7⟩

/-- A request that finds the timer inside the window starts the step whose duration the
timing array holds at the current index. -/
theorem LightAttack_of_get {s : State} (hH : s.HeavyAttackIndex = 0)
    (ht : s.StaticActionDurationTimer ≤ s.AdditionalAttackBufferTiming) {d : ℚ}
    (hd : LightAttackTimings.get? s.LightAttackIndex = some d) :
    LightAttack s = some (lightStarted s d) := by
  have hL : s.LightAttackIndex < LightAttackChainLength := by
    have := List.get?_eq_some.mp hd
    obtain ⟨hlt, -⟩ := this
    exact hlt
  obtain ⟨d', hd', -, e⟩ := LightAttack_started hH hL ht
  rw [hd] at hd'
  cases hd'
  exact e

/-- The frame in which the timer enters the window with a light request buffered starts the
next light step. -/
theorem Tick_fires_light {s : State} (hs : s.StaticAction = true)
    (hb : s.AdditionalAttackBuffer = true) (hty : s.CurrentAttackType = "Light")
    (hH : s.HeavyAttackIndex = 0) (hL : s.LightAttackIndex < LightAttackChainLength)
    {dt : ℚ} (ht : 0 < s.StaticActionDurationTimer - dt)
    (hw : s.StaticActionDurationTimer - dt ≤ s.AdditionalAttackBufferTiming) (v : FVector) :
    ∃ d, 0 < d ∧ Tick s dt v = some (lightStarted (countdown s dt) d) := by
  obtain ⟨d, -, hd, e⟩ :=
    LightAttack_started (s := countdown s dt) hH hL hw
  refine ⟨d, hd, ?_⟩
  rw [Tick_fired hs ht hw hb, if_pos hty, e]

/-- A well-timed light request during an unbuffered light step starts the next step. -/
theorem light_chain_step {a b : State} (hs : a.StaticAction = true)
    (hb : a.AdditionalAttackBuffer = false) (hH : a.HeavyAttackIndex = 0)
    (hL : a.LightAttackIndex < LightAttackChainLength) {fs : List (ℚ × FVector)}
    (h : Ticks a fs = some b) (hpos : 0 < b.StaticActionDurationTimer)
    (hw : b.StaticActionDurationTimer ≤ b.AdditionalAttackBufferTiming) :
    ∃ a', LightAttack b = some a' ∧ a'.LightAttackIndex = a.LightAttackIndex + 1 ∧
      a'.PlayerAction = "LightAttack_" ++ toString a.LightAttackIndex ∧
      a'.StaticAction = true ∧ a'.AdditionalAttackBuffer = false ∧ a'.HeavyAttackIndex = 0 := by
  rcases Ticks_unbuffered hs hb h with ⟨-, h2, h3, -, -⟩ | ⟨-, -, -, h4⟩
  · obtain ⟨d, -, -, e⟩ :=
      LightAttack_started (s := b) (h3.trans hH) (by rw [h2]; exact hL) hw
    refine ⟨_, e, ?_, ?_, rfl, rfl, h3.trans hH⟩
    · show b.LightAttackIndex + 1 = _
      rw [h2]
    · show "LightAttack_" ++ toString b.LightAttackIndex = _
      rw [h2]
  · rw [h4] at hpos; exact absurd hpos (lt_irrefl _)

/-- One frame of a step that neither ends nor fires a buffered request. -/
theorem Ticks_one_running (s : State) (dt : ℚ) (v : FVector) (hs : s.StaticAction = true)
    (hb : s.AdditionalAttackBuffer = false) (ht : 0 < s.StaticActionDurationTimer - dt) :
    Ticks s [(dt, v)] = some (countdown s dt) := by
  have hn : ¬(s.StaticActionDurationTimer - dt ≤ s.AdditionalAttackBufferTiming
      ∧ s.AdditionalAttackBuffer = true) := by
    rw [hb]; simp
  rw [Ticks_cons (f := (dt, v)) (Tick_running hs ht hn v)]
  rfl

/-! ## Two concrete reachable states -/

theorem LightAttack_BeginPlay : LightAttack BeginPlay = some lightStep0 := by
  unfold LightAttack
  rw [if_pos ⟨rfl, by decide⟩,
    if_pos (show BeginPlay.StaticActionDurationTimer ≤ BeginPlay.AdditionalAttackBufferTiming
      from le_refl (0 : ℚ))]
  rfl

theorem HeavyAttack_BeginPlay : HeavyAttack BeginPlay = some heavyStep0 := by
  unfold HeavyAttack
  rw [if_pos ⟨rfl, by decide⟩,
    if_pos (show BeginPlay.StaticActionDurationTimer ≤ BeginPlay.AdditionalAttackBufferTiming
      from le_refl (0 : ℚ))]
  rfl

theorem Reachable_lightStep0 : Reachable lightStep0 :=
  ReachableFrom.light ReachableFrom.init LightAttack_BeginPlay

theorem Reachable_heavyStep0 : Reachable heavyStep0 :=
  ReachableFrom.heavy ReachableFrom.init HeavyAttack_BeginPlay

/-! ## Claims -/

/-- C1: in every state reachable from spawn by `Tick`, `LightAttack`, `HeavyAttack`, `Block` and
`SprintingFlag`, a positive light index forces the heavy index to be 0 and a positive heavy
index forces the light index to be 0. -/
theorem C1_chains_mutually_exclusive (s : State) (h : Reachable s) :
    (0 < s.LightAttackIndex → s.HeavyAttackIndex = 0) ∧
    (0 < s.HeavyAttackIndex → s.LightAttackIndex = 0) := by
  have hi := (Inv_of_reachable h).excl
  constructor
  · intro hl; rcases hi with h0 | h0
    · omega
    · exact h0
  · intro hh; rcases hi with h0 | h0
    · exact h0
    · omega

/-- Witness for C1 at the state reached by one light attack from spawn. -/
theorem C1_chains_mutually_exclusive_witness :
    Reachable lightStep0 ∧ 0 < lightStep0.LightAttackIndex ∧ lightStep0.HeavyAttackIndex = 0 :=
  ⟨Reachable_lightStep0, by decide,
    (C1_chains_mutually_exclusive lightStep0 Reachable_lightStep0).1 (by decide)⟩

/-- C2: in every state reachable from spawn, `StaticAction` is true exactly when
`StaticActionDurationTimer` is positive, and the timer is never negative. -/
theorem C2_static_iff_timer_positive (s : State) (h : Reachable s) :
    (s.StaticAction = true ↔ 0 < s.StaticActionDurationTimer) ∧
    0 ≤ s.StaticActionDurationTimer :=
  ⟨(Inv_of_reachable h).static_iff, (Inv_of_reachable h).timer_nonneg⟩

/-- Witness for C2 at the state reached by one heavy attack from spawn. -/
theorem C2_static_iff_timer_positive_witness :
    Reachable heavyStep0 ∧ heavyStep0.StaticAction = true ∧
      0 < heavyStep0.StaticActionDurationTimer :=
  ⟨Reachable_heavyStep0, rfl,
    (C2_static_iff_timer_positive heavyStep0 Reachable_heavyStep0).1.mp rfl⟩

/-- C3: from spawn, five light requests, each made with the timer at or below the buffer
window (and above 0 from the second on), take `LightAttackIndex` through 1, 2, 3, 4, 5 with
tags `LightAttack_0` .. `LightAttack_4`; a sixth request made while the index is 5 returns the
state unchanged. Between requests any run of frames may pass. -/
theorem C3_light_chain_progression :
    ∃ a1, LightAttack BeginPlay = some a1 ∧ a1.LightAttackIndex = 1 ∧
      a1.PlayerAction = "LightAttack_0" ∧
    ∀ fs1 b1, Ticks a1 fs1 = some b1 → 0 < b1.StaticActionDurationTimer →
      b1.StaticActionDurationTimer ≤ b1.AdditionalAttackBufferTiming →
    ∃ a2, LightAttack b1 = some a2 ∧ a2.LightAttackIndex = 2 ∧
      a2.PlayerAction = "LightAttack_1" ∧
    ∀ fs2 b2, Ticks a2 fs2 = some b2 → 0 < b2.StaticActionDurationTimer →
      b2.StaticActionDurationTimer ≤ b2.AdditionalAttackBufferTiming →
    ∃ a3, LightAttack b2 = some a3 ∧ a3.LightAttackIndex = 3 ∧
      a3.PlayerAction = "LightAttack_2" ∧
    ∀ fs3 b3, Ticks a3 fs3 = some b3 → 0 < b3.StaticActionDurationTimer →
      b3.StaticActionDurationTimer ≤ b3.AdditionalAttackBufferTiming →
    ∃ a4, LightAttack b3 = some a4 ∧ a4.LightAttackIndex = 4 ∧
      a4.PlayerAction = "LightAttack_3" ∧
    ∀ fs4 b4, Ticks a4 fs4 = some b4 → 0 < b4.StaticActionDurationTimer →
      b4.StaticActionDurationTimer ≤ b4.AdditionalAttackBufferTiming →
    ∃ a5, LightAttack b4 = some a5 ∧ a5.LightAttackIndex = 5 ∧
      a5.PlayerAction = "LightAttack_4" ∧
    ∀ fs5 b5, Ticks a5 fs5 = some b5 → b5.LightAttackIndex = 5 →
      LightAttack b5 = some b5 := by
  refine ⟨lightStep0, LightAttack_BeginPlay, rfl, by decide, ?_⟩
  intro fs1 b1 h1 p1 w1
  obtain ⟨a2, e2, l2, t2, s2, u2, g2⟩ :=
    light_chain_step (a := lightStep0) rfl rfl rfl (by decide) h1 p1 w1
  refine ⟨a2, e2, l2, t2.trans (by decide), ?_⟩
  intro fs2 b2 h2 p2 w2
  obtain ⟨a3, e3, l3, t3, s3, u3, g3⟩ :=
    light_chain_step s2 u2 g2 (by rw [l2]; decide) h2 p2 w2
  rw [l2] at l3 t3
  refine ⟨a3, e3, l3, t3.trans (by decide), ?_⟩
  intro fs3 b3 h3 p3 w3
  obtain ⟨a4, e4, l4, t4, s4, u4, g4⟩ :=
    light_chain_step s3 u3 g3 (by rw [l3]; decide) h3 p3 w3
  rw [l3] at l4 t4
  refine ⟨a4, e4, l4, t4.trans (by decide), ?_⟩
  intro fs4 b4 h4 p4 w4
  obtain ⟨a5, e5, l5, t5, -, -, -⟩ :=
    light_chain_step s4 u4 g4 (by rw [l4]; decide) h4 p4 w4
  rw [l4] at l5 t5
  refine ⟨a5, e5, l5, t5.trans (by decide), ?_⟩
  intro fs5 b5 _ l6
  apply LightAttack_ignored
  rintro ⟨-, hl⟩
  rw [l6] at hl
  exact absurd hl (by decide)

/-- Witness for C3: the five requests arrive exactly when the window opens (half a second
into step 0, then 0.35 s into each later step); the run ends at index 5 with tag
`LightAttack_4`, and a sixth request changes nothing. -/
theorem C3_light_chain_progression_witness :
    ∃ a5 : State, a5.LightAttackIndex = 5 ∧ a5.PlayerAction = "LightAttack_4" ∧
      LightAttack a5 = some a5 := by
  obtain ⟨a1, e1, -, -, k1⟩ := C3_light_chain_progression
  obtain rfl : lightStep0 = a1 := Option.some.inj (LightAttack_BeginPlay.symm.trans e1)
  have r1 := Ticks_one_running lightStep0 (1 / 2) FVector.zero rfl rfl
    (by norm_num [lightStep0, lightStarted])
  have w1 : (countdown lightStep0 (1 / 2)).StaticActionDurationTimer
      ≤ (countdown lightStep0 (1 / 2)).AdditionalAttackBufferTiming := by
    norm_num [countdown, lightStep0, lightStarted, AttackBufferTimingMulti]
  obtain ⟨a2, e2, -, -, k2⟩ := k1 _ _ r1
    (by norm_num [countdown, lightStep0, lightStarted]) w1
  obtain rfl := Option.some.inj ((LightAttack_of_get (d := 7 / 10) rfl w1 rfl).symm.trans e2)
  have r2 := Ticks_one_running (lightStarted (countdown lightStep0 (1 / 2)) (7 / 10))
    (7 / 20) FVector.zero rfl rfl (by norm_num [lightStarted])
  have w2 : (countdown (lightStarted (countdown lightStep0 (1 / 2)) (7 / 10))
      (7 / 20)).StaticActionDurationTimer
      ≤ (countdown (lightStarted (countdown lightStep0 (1 / 2)) (7 / 10))
      (7 / 20)).AdditionalAttackBufferTiming := by
    norm_num [countdown, lightStarted, AttackBufferTimingMulti]
  obtain ⟨a3, e3, -, -, k3⟩ := k2 _ _ r2 (by norm_num [countdown, lightStarted]) w2
  obtain rfl := Option.some.inj ((LightAttack_of_get (d := 7 / 10) rfl w2 rfl).symm.trans e3)
  have r3 := Ticks_one_running (lightStarted (countdown (lightStarted
    (countdown lightStep0 (1 / 2)) (7 / 10)) (7 / 20)) (7 / 10))
    (7 / 20) FVector.zero rfl rfl (by norm_num [lightStarted])
  have w3 : (countdown (lightStarted (countdown (lightStarted
      (countdown lightStep0 (1 / 2)) (7 / 10)) (7 / 20)) (7 / 10))
      (7 / 20)).StaticActionDurationTimer
      ≤ (countdown (lightStarted (countdown (lightStarted
      (countdown lightStep0 (1 / 2)) (7 / 10)) (7 / 20)) (7 / 10))
      (7 / 20)).AdditionalAttackBufferTiming := by
    norm_num [countdown, lightStarted, AttackBufferTimingMulti]
  obtain ⟨a4, e4, -, -, k4⟩ := k3 _ _ r3 (by norm_num [countdown, lightStarted]) w3
  obtain rfl := Option.some.inj ((LightAttack_of_get (d := 7 / 10) rfl w3 rfl).symm.trans e4)
  have r4 := Ticks_one_running (lightStarted (countdown (lightStarted (countdown (lightStarted
    (countdown lightStep0 (1 / 2)) (7 / 10)) (7 / 20)) (7 / 10)) (7 / 20)) (7 / 10))
    (7 / 20) FVector.zero rfl rfl (by norm_num [lightStarted])
  have w4 : (countdown (lightStarted (countdown (lightStarted (countdown (lightStarted
      (countdown lightStep0 (1 / 2)) (7 / 10)) (7 / 20)) (7 / 10)) (7 / 20)) (7 / 10))
      (7 / 20)).StaticActionDurationTimer
      ≤ (countdown (lightStarted (countdown (lightStarted (countdown (lightStarted
      (countdown lightStep0 (1 / 2)) (7 / 10)) (7 / 20)) (7 / 10)) (7 / 20)) (7 / 10))
      (7 / 20)).AdditionalAttackBufferTiming := by
    norm_num [countdown, lightStarted, AttackBufferTimingMulti]
  obtain ⟨a5, -, l5, t5, k5⟩ := k4 _ _ r4 (by norm_num [countdown, lightStarted]) w4
  exact ⟨a5, l5, t5, k5 [] a5 rfl l5⟩

/-- C4 (as the code behaves): in a reachable state with a light step active, the chain not
exhausted and the timer above the buffer window, a light request starts nothing (index, timer
and tag unchanged). In every following run of frames, while the counted-down timer stays above
the window nothing starts; the first frame that brings the timer to or below the window while
leaving it above 0 raises `LightAttackIndex` by exactly one and sets the tag to
`LightAttack_<previous index>`; after that frame no further step starts: the state is either
still in that step or the static action has ended with the index back at 0. -/
theorem C4_buffered_request_fires_once (s : State) (h : Reachable s)
    (hs : s.StaticAction = true) (hl : 0 < s.LightAttackIndex)
    (hc : s.LightAttackIndex < LightAttackChainLength)
    (ht : s.AdditionalAttackBufferTiming < s.StaticActionDurationTimer) :
    ∃ s1, LightAttack s = some s1 ∧ s1.LightAttackIndex = s.LightAttackIndex ∧
      s1.StaticActionDurationTimer = s.StaticActionDurationTimer ∧
      s1.PlayerAction = s.PlayerAction ∧
    ∀ pre, StaysAbove s1 pre →
    ∃ p, Ticks s1 pre = some p ∧ p.LightAttackIndex = s.LightAttackIndex ∧
      p.PlayerAction = s.PlayerAction ∧
    ∀ dt v, p.StaticActionDurationTimer - dt ≤ p.AdditionalAttackBufferTiming →
      0 < p.StaticActionDurationTimer - dt →
    ∃ q, Tick p dt v = some q ∧ q.LightAttackIndex = s.LightAttackIndex + 1 ∧
      q.PlayerAction = "LightAttack_" ++ toString s.LightAttackIndex ∧
    ∀ post, ∃ r, Ticks q post = some r ∧
      ((r.StaticAction = true ∧ r.LightAttackIndex = s.LightAttackIndex + 1 ∧
          r.PlayerAction = "LightAttack_" ++ toString s.LightAttackIndex) ∨
        (r.StaticAction = false ∧ r.LightAttackIndex = 0)) := by
  have hi := Inv_of_reachable h
  have hH : s.HeavyAttackIndex = 0 := by
    rcases hi.excl with h0 | h0
    · omega
    · exact h0
  refine ⟨_, LightAttack_buffered hH hc (not_le.mpr ht), rfl, rfl, rfl, ?_⟩
  intro pre hpre
  obtain ⟨p, hp, p1, p2, p3, p4, p5, p6, -⟩ := Ticks_above
    (s := { s with CurrentAttackType := "Light", AdditionalAttackBuffer := true })
    hs hi.window_nonneg hpre
  refine ⟨p, hp, p2, p4, ?_⟩
  intro dt v hw hpos
  obtain ⟨d, -, hq⟩ := Tick_fires_light p1 p5 p6 (p3.trans hH) (by rw [p2]; exact hc) hpos hw v
  refine ⟨_, hq, ?_, ?_, ?_⟩
  · show p.LightAttackIndex + 1 = _
    rw [p2]
  · show "LightAttack_" ++ toString p.LightAttackIndex = _
    rw [p2]
  · intro post
    obtain ⟨r, hr⟩ := Ticks_total (lightStarted (countdown p dt) d) post
    refine ⟨r, hr, ?_⟩
    rcases Ticks_unbuffered (s := lightStarted (countdown p dt) d) rfl rfl hr with
      ⟨r1, r2, -, r4, -⟩ | ⟨r1, r2, -, -⟩
    · left
      refine ⟨r1, ?_, ?_⟩
      · rw [r2]
        show p.LightAttackIndex + 1 = _
        rw [p2]
      · rw [r4]
        show "LightAttack_" ++ toString p.LightAttackIndex = _
        rw [p2]
    · exact Or.inr ⟨r1, r2⟩

/-- Witness for C4: during light step 0 (one second long, window half a second) a second
request is buffered; a quarter-second frame keeps the timer above the window, the next
quarter-second frame brings it to the window and starts light step 1. -/
theorem C4_buffered_request_fires_once_witness :
    Reachable lightStep0 ∧
    ∃ q, Tick (countdown lightStep0Buffered (1 / 4)) (1 / 4) FVector.zero = some q ∧
      q.LightAttackIndex = 2 ∧ q.PlayerAction = "LightAttack_1" := by
  refine ⟨Reachable_lightStep0, ?_⟩
  obtain ⟨s1, e1, -, -, -, k1⟩ := C4_buffered_request_fires_once lightStep0
    Reachable_lightStep0 rfl (by decide) (by decide)
    (by norm_num [lightStep0, lightStarted, AttackBufferTimingMulti])
  obtain rfl : lightStep0Buffered = s1 :=
    Option.some.inj ((LightAttack_buffered (s := lightStep0) rfl (by decide)
      (by norm_num [lightStep0, lightStarted, AttackBufferTimingMulti])).symm.trans e1)
  have hrun : Tick lightStep0Buffered (1 / 4) FVector.zero
      = some (countdown lightStep0Buffered (1 / 4)) :=
    Tick_running rfl
      (by norm_num [lightStep0Buffered, lightStep0, lightStarted])
      (by norm_num [lightStep0Buffered, lightStep0, lightStarted, AttackBufferTimingMulti])
      FVector.zero
  have habove : StaysAbove lightStep0Buffered [((1 / 4 : ℚ), FVector.zero)] := by
    refine ⟨by norm_num [lightStep0Buffered, lightStep0, lightStarted,
      AttackBufferTimingMulti], ?_⟩
    rw [hrun]
    trivial
  obtain ⟨p, hp, -, -, k2⟩ := k1 _ habove
  obtain rfl : countdown lightStep0Buffered (1 / 4) = p := by
    rw [Ticks_cons (f := ((1 / 4 : ℚ), FVector.zero)) hrun] at hp
    exact Option.some.inj hp
  obtain ⟨q, hq, q1, q2, -⟩ := k2 (1 / 4) FVector.zero
    (by norm_num [countdown, lightStep0Buffered, lightStep0, lightStarted,
      AttackBufferTimingMulti])
    (by norm_num [countdown, lightStep0Buffered, lightStep0, lightStarted])
  exact ⟨q, hq, q1, q2.trans (by decide)⟩

/-- Counterexample to C4 as stated: in the reachable state after one light attack (timer 1,
window 1/2) a second request is buffered, and a one-second frame is then the first frame after
which the timer is at or below the window; it starts no step: the static action ends, the
index drops to 0 instead of rising to 2, and the tag is still `LightAttack_0`. -/
theorem C4_counterexample :
    Reachable lightStep0 ∧ lightStep0.StaticAction = true ∧ 0 < lightStep0.LightAttackIndex ∧
    lightStep0.LightAttackIndex < LightAttackChainLength ∧
    lightStep0.AdditionalAttackBufferTiming < lightStep0.StaticActionDurationTimer ∧
    LightAttack lightStep0 = some lightStep0Buffered ∧
    lightStep0Buffered.StaticActionDurationTimer - 1
      ≤ lightStep0Buffered.AdditionalAttackBufferTiming ∧
    Tick lightStep0Buffered 1 FVector.zero = some (staticEnded lightStep0Buffered) ∧
    (staticEnded lightStep0Buffered).LightAttackIndex = 0 ∧
    (staticEnded lightStep0Buffered).LightAttackIndex ≠ lightStep0.LightAttackIndex + 1 ∧
    (staticEnded lightStep0Buffered).PlayerAction = "LightAttack_0" ∧
    (staticEnded lightStep0Buffered).AdditionalAttackBuffer = false := by
  have ht : lightStep0.AdditionalAttackBufferTiming < lightStep0.StaticActionDurationTimer := by
    norm_num [lightStep0, lightStarted, AttackBufferTimingMulti]
  refine ⟨Reachable_lightStep0, rfl, by decide, by decide, ht,
    LightAttack_buffered rfl (by decide) (not_le.mpr ht), ?_, ?_, rfl, by decide, by decide, rfl⟩
  · norm_num [lightStep0Buffered, lightStep0, lightStarted, AttackBufferTimingMulti]
  · exact Tick_ended rfl (by norm_num [lightStep0Buffered, lightStep0, lightStarted]) _

/-- C5: with the opposite chain idle, the requested chain's index `i` below its chain length and
the timer at or below the buffer window, a light (resp. heavy) request starts step `i`:
`StaticAction` true, `Blocking` false, the attack type and trigger set, the tag
`LightAttack_i` (resp. `HeavyAttack_i`), the timer at the `i`-th duration, the window at that
duration times `AttackBufferTimingMulti` (one half), the buffer cleared and the index `i + 1`. -/
theorem C5_request_in_window_starts_step (s : State) :
    (s.HeavyAttackIndex = 0 → s.LightAttackIndex < LightAttackChainLength →
      s.StaticActionDurationTimer ≤ s.AdditionalAttackBufferTiming →
      ∃ d s', LightAttackTimings.get? s.LightAttackIndex = some d ∧ LightAttack s = some s' ∧
        s'.StaticAction = true ∧ s'.Blocking = false ∧ s'.CurrentAttackType = "Light" ∧
        s'.AttackMechanicsTrigger = true ∧
        s'.PlayerAction = "LightAttack_" ++ toString s.LightAttackIndex ∧
        s'.StaticActionDurationTimer = d ∧
        s'.AdditionalAttackBufferTiming = d * AttackBufferTimingMulti ∧
        s'.AdditionalAttackBuffer = false ∧ s'.LightAttackIndex = s.LightAttackIndex + 1) ∧
    (s.LightAttackIndex = 0 → s.HeavyAttackIndex < HeavyAttackChainLength →
      s.StaticActionDurationTimer ≤ s.AdditionalAttackBufferTiming →
      ∃ d s', HeavyAttackTimings.get? s.HeavyAttackIndex = some d ∧ HeavyAttack s = some s' ∧
        s'.StaticAction = true ∧ s'.Blocking = false ∧ s'.CurrentAttackType = "Heavy" ∧
        s'.AttackMechanicsTrigger = true ∧
        s'.PlayerAction = "HeavyAttack_" ++ toString s.HeavyAttackIndex ∧
        s'.StaticActionDurationTimer = d ∧
        s'.AdditionalAttackBufferTiming = d * AttackBufferTimingMulti ∧
        s'.AdditionalAttackBuffer = false ∧ s'.HeavyAttackIndex = s.HeavyAttackIndex + 1) ∧
    AttackBufferTimingMulti = 1 / 2 := by
  refine ⟨fun hH hL ht => ?_, fun hL hH ht => ?_, rfl⟩
  · obtain ⟨d, hd, -, e⟩ := LightAttack_started hH hL ht
    exact ⟨d, _, hd, e, rfl, rfl, rfl, rfl, rfl, rfl, rfl, rfl, rfl⟩
  · obtain ⟨d, hd, -, e⟩ := HeavyAttack_started hL hH ht
    exact ⟨d, _, hd, e, rfl, rfl, rfl, rfl, rfl, rfl, rfl, rfl, rfl⟩

/-- Witness for C5: both requests at the spawn state start step 0 of their chain. -/
theorem C5_request_in_window_starts_step_witness :
    (∃ s', LightAttack BeginPlay = some s' ∧ s'.PlayerAction = "LightAttack_0" ∧
      s'.StaticActionDurationTimer = 1 ∧ s'.AdditionalAttackBufferTiming = 1 / 2 ∧
      s'.LightAttackIndex = 1) ∧
    (∃ s', HeavyAttack BeginPlay = some s' ∧ s'.PlayerAction = "HeavyAttack_0" ∧
      s'.StaticActionDurationTimer = 3 / 2 ∧ s'.AdditionalAttackBufferTiming = 3 / 4 ∧
      s'.HeavyAttackIndex = 1) := by
  constructor
  · obtain ⟨d, s', hd, e, -, -, -, -, h5, h6, h7, -, h9⟩ :=
      (C5_request_in_window_starts_step BeginPlay).1 rfl (by decide) (le_refl (0 : ℚ))
    have hd1 : d = 1 := by
      have h := hd
      simp [BeginPlay, LightAttackTimings] at h
      exact h.symm
    subst hd1
    refine ⟨s', e, by rw [h5]; decide, h6, ?_, h9⟩
    rw [h7]; norm_num [AttackBufferTimingMulti]
  · obtain ⟨d, s', hd, e, -, -, -, -, h5, h6, h7, -, h9⟩ :=
      (C5_request_in_window_starts_step BeginPlay).2.1 rfl (by decide) (le_refl (0 : ℚ))
    have hd1 : d = 3 / 2 := by
      have h := hd
      simp [BeginPlay, HeavyAttackTimings] at h
      exact h.symm
    subst hd1
    refine ⟨s', e, by rw [h5]; decide, h6, ?_, h9⟩
    rw [h7]; norm_num [AttackBufferTimingMulti]

/-- C6: a light request while the heavy chain is active or the light chain is exhausted, and a
heavy request while the light chain is active or the heavy chain is exhausted, returns the
state record unchanged, and returns it (no failure). -/
theorem C6_invalid_request_ignored (s : State) :
    ((0 < s.HeavyAttackIndex ∨ s.LightAttackIndex = LightAttackChainLength) →
      LightAttack s = some s) ∧
    ((0 < s.LightAttackIndex ∨ s.HeavyAttackIndex = HeavyAttackChainLength) →
      HeavyAttack s = some s) := by
  constructor
  · intro h
    apply LightAttack_ignored
    rintro ⟨h0, hl⟩
    rcases h with h | h <;> omega
  · intro h
    apply HeavyAttack_ignored
    rintro ⟨h0, hl⟩
    rcases h with h | h <;> omega

/-- Witness for C6: a light request during heavy step 0 and a heavy request during light
step 0 change nothing. -/
theorem C6_invalid_request_ignored_witness :
    LightAttack heavyStep0 = some heavyStep0 ∧ HeavyAttack lightStep0 = some lightStep0 :=
  ⟨(C6_invalid_request_ignored heavyStep0).1 (Or.inl (by decide)),
    (C6_invalid_request_ignored lightStep0).2 (Or.inl (by decide))⟩

/-- C7: in a reachable state with no static action, a light request starts step 0 of the light
chain and a heavy request starts step 0 of the heavy chain; neither is buffered or ignored. -/
theorem C7_unlocked_request_starts_step0 (s : State) (h : Reachable s)
    (hs : s.StaticAction = false) :
    (∃ s', LightAttack s = some s' ∧ s'.PlayerAction = "LightAttack_0" ∧
      LightAttackTimings.get? 0 = some s'.StaticActionDurationTimer ∧
      s'.LightAttackIndex = 1 ∧ s'.StaticAction = true ∧ s'.AdditionalAttackBuffer = false) ∧
    (∃ s', HeavyAttack s = some s' ∧ s'.PlayerAction = "HeavyAttack_0" ∧
      HeavyAttackTimings.get? 0 = some s'.StaticActionDurationTimer ∧
      s'.HeavyAttackIndex = 1 ∧ s'.StaticAction = true ∧ s'.AdditionalAttackBuffer = false) := by
  have hi := Inv_of_reachable h
  obtain ⟨hl, hh, hw⟩ := hi.idle hs
  have ht : s.StaticActionDurationTimer ≤ s.AdditionalAttackBufferTiming := by
    have h1 : ¬ 0 < s.StaticActionDurationTimer := fun h0 => by
      have := hi.static_iff.mpr h0
      rw [hs] at this; cases this
    rw [hw]; exact not_lt.mp h1
  constructor
  · obtain ⟨d, hd, -, e⟩ := LightAttack_started hh (by rw [hl]; decide) ht
    refine ⟨_, e, ?_, ?_, ?_, rfl, rfl⟩
    · show "LightAttack_" ++ toString s.LightAttackIndex = "LightAttack_0"
      rw [hl]; decide
    · rw [hl] at hd; exact hd
    · show s.LightAttackIndex + 1 = 1
      rw [hl]
  · obtain ⟨d, hd, -, e⟩ := HeavyAttack_started hl (by rw [hh]; decide) ht
    refine ⟨_, e, ?_, ?_, ?_, rfl, rfl⟩
    · show "HeavyAttack_" ++ toString s.HeavyAttackIndex = "HeavyAttack_0"
      rw [hh]; decide
    · rw [hh] at hd; exact hd
    · show s.HeavyAttackIndex + 1 = 1
      rw [hh]

/-- Witness for C7 at the spawn state. -/
theorem C7_unlocked_request_starts_step0_witness :
    Reachable BeginPlay ∧ BeginPlay.StaticAction = false ∧
    (∃ s', LightAttack BeginPlay = some s' ∧ s'.PlayerAction = "LightAttack_0" ∧
      s'.LightAttackIndex = 1) ∧
    (∃ s', HeavyAttack BeginPlay = some s' ∧ s'.PlayerAction = "HeavyAttack_0" ∧
      s'.HeavyAttackIndex = 1) := by
  obtain ⟨⟨a, ha, ha1, -, ha2, -⟩, ⟨b, hb, hb1, -, hb2, -⟩⟩ :=
    C7_unlocked_request_starts_step0 BeginPlay ReachableFrom.init rfl
  exact ⟨ReachableFrom.init, rfl, ⟨a, ha, ha1, ha2⟩, ⟨b, hb, hb1, hb2⟩⟩

/-- C8: during a static action, a `Tick` whose frame time brings the timer to 0 or below ends
the action: `StaticAction` false, timer 0, both chain indices 0, buffer cleared, window 0. -/
theorem C8_tick_ends_static_action (s : State) (dt : ℚ) (v : FVector)
    (hs : s.StaticAction = true) (ht : s.StaticActionDurationTimer - dt ≤ 0) :
    ∃ s', Tick s dt v = some s' ∧ s'.StaticAction = false ∧ s'.StaticActionDurationTimer = 0 ∧
      s'.LightAttackIndex = 0 ∧ s'.HeavyAttackIndex = 0 ∧ s'.AdditionalAttackBuffer = false ∧
      s'.AdditionalAttackBufferTiming = 0 :=
  ⟨_, Tick_ended hs ht v, rfl, rfl, rfl, rfl, rfl, rfl⟩

/-- Witness for C8: a one-second frame ends light step 0, whose duration is one second. -/
theorem C8_tick_ends_static_action_witness :
    lightStep0.StaticAction = true ∧ lightStep0.StaticActionDurationTimer - 1 ≤ 0 ∧
    ∃ s', Tick lightStep0 1 FVector.zero = some s' ∧ s'.StaticAction = false ∧
      s'.StaticActionDurationTimer = 0 ∧ s'.LightAttackIndex = 0 ∧ s'.HeavyAttackIndex = 0 ∧
      s'.AdditionalAttackBuffer = false ∧ s'.AdditionalAttackBufferTiming = 0 :=
  have ht : lightStep0.StaticActionDurationTimer - 1 ≤ 0 := by
    norm_num [lightStep0, lightStarted]
  ⟨rfl, ht, C8_tick_ends_static_action lightStep0 1 FVector.zero rfl ht⟩

/-- C9: in every state reachable from spawn, `Blocking` true implies `StaticAction` false. -/
theorem C9_blocking_excludes_static_action (s : State) (h : Reachable s)
    (hb : s.Blocking = true) : s.StaticAction = false :=
  (Inv_of_reachable h).block hb

/-- Witness for C9 at the state reached by pressing block at spawn. -/
theorem C9_blocking_excludes_static_action_witness :
    Reachable (Block BeginPlay true) ∧ (Block BeginPlay true).Blocking = true ∧
      (Block BeginPlay true).StaticAction = false :=
  ⟨ReachableFrom.block true ReachableFrom.init, rfl,
    C9_blocking_excludes_static_action (Block BeginPlay true)
      (ReachableFrom.block true ReachableFrom.init) rfl⟩

/-- C10: outside a static action `Block(true)` sets `Blocking` and a second `Block(true)`
changes nothing more; during a static action `Block(b)` leaves the whole state unchanged. -/
theorem C10_block_idempotent_and_gated (s : State) :
    (s.StaticAction = false →
      (Block s true).Blocking = true ∧ Block (Block s true) true = Block s true) ∧
    (s.StaticAction = true → ∀ b, Block s b = s) := by
  constructor
  · intro hs
    have e : Block s true = { s with Blocking := true } := Block_free hs true
    have hs' : ({ s with Blocking := true } : State).StaticAction = false := hs
    refine ⟨by rw [e], ?_⟩
    rw [e, Block_free hs' true]
  · intro hs b
    exact Block_static hs b

/-- Witness for C10: blocking at spawn, and blocking or releasing during light step 0. -/
theorem C10_block_idempotent_and_gated_witness :
    ((Block BeginPlay true).Blocking = true ∧
      Block (Block BeginPlay true) true = Block BeginPlay true) ∧
    Block lightStep0 true = lightStep0 ∧ Block lightStep0 false = lightStep0 :=
  ⟨(C10_block_idempotent_and_gated BeginPlay).1 rfl,
    (C10_block_idempotent_and_gated lightStep0).2 rfl true,
    (C10_block_idempotent_and_gated lightStep0).2 rfl false⟩

/-! ## What the free-movement branch of the resolver writes -/

theorem resolveFree_PlayerAction (s : State) (dt : ℚ) (v : FVector) :
    (resolveFree s dt v).PlayerAction =
      if v = ⟨0, 0, 0⟩ then "Idle" else if s.isSprinting = true then "Sprinting" else "Moving" := by
  have h1 : ∀ x : State, (resolveMode x).PlayerAction = x.PlayerAction := by
    intro x; unfold resolveMode; dsimp only; split_ifs <;> rfl
  have h2 : ∀ x : State, (resolveSprint x).PlayerAction = x.PlayerAction := by
    intro x; unfold resolveSprint; split_ifs <;> rfl
  have h3 : ∀ (x : State) (d : ℚ), (resolveShake x d).PlayerAction = x.PlayerAction := by
    intro x d; unfold resolveShake shakeTarget shakeClampLow shakeClampHigh
    split_ifs <;> rfl
  show (resolveShake (resolveArm (resolveSprint (resolveMode (resolveAction s v))) dt)
    dt).PlayerAction = _
  rw [h3]
  show (resolveSprint (resolveMode (resolveAction s v))).PlayerAction = _
  rw [h2, h1]
  unfold resolveAction
  split_ifs <;> rfl

/-- The mode tags, the sprint flag and the shake direction read by the resolver. -/
theorem resolveFree_tags (s : State) (dt : ℚ) (v : FVector) :
    (resolveFree s dt v).PlayerControlState = s.PlayerControlState ∧
    (resolveFree s dt v).CameraState = s.CameraState := by
  have h0 : ∀ (x : State) (w : FVector),
      (resolveAction x w).PlayerControlState = x.PlayerControlState ∧
      (resolveAction x w).CameraState = x.CameraState := by
    intro x w; unfold resolveAction; split_ifs <;> exact ⟨rfl, rfl⟩
  have h1 : ∀ x : State, (resolveMode x).PlayerControlState = x.PlayerControlState ∧
      (resolveMode x).CameraState = x.CameraState := by
    intro x; unfold resolveMode; dsimp only; split_ifs <;> exact ⟨rfl, rfl⟩
  have h2 : ∀ x : State, (resolveSprint x).PlayerControlState = x.PlayerControlState ∧
      (resolveSprint x).CameraState = x.CameraState := by
    intro x; unfold resolveSprint; split_ifs <;> exact ⟨rfl, rfl⟩
  have h3 : ∀ (x : State) (d : ℚ),
      (resolveShake x d).PlayerControlState = x.PlayerControlState ∧
      (resolveShake x d).CameraState = x.CameraState := by
    intro x d; unfold resolveShake shakeTarget shakeClampLow shakeClampHigh
    split_ifs <;> exact ⟨rfl, rfl⟩
  have e3 := h3 (resolveArm (resolveSprint (resolveMode (resolveAction s v))) dt) dt
  have e2 := h2 (resolveMode (resolveAction s v))
  have e1 := h1 (resolveAction s v)
  have e0 := h0 s v
  constructor
  · exact e3.1.trans (e2.1.trans (e1.1.trans e0.1))
  · exact e3.2.trans (e2.2.trans (e1.2.trans e0.2))

theorem resolveFree_DesiredArmLength (s : State) (dt : ℚ) (v : FVector) :
    (resolveFree s dt v).DesiredArmLength = targetArm s v := by
  have h2 : ∀ x : State, (resolveSprint x).DesiredArmLength = x.DesiredArmLength := by
    intro x; unfold resolveSprint; split_ifs <;> rfl
  have h3 : ∀ (x : State) (d : ℚ), (resolveShake x d).DesiredArmLength = x.DesiredArmLength := by
    intro x d; unfold resolveShake shakeTarget shakeClampLow shakeClampHigh
    split_ifs <;> rfl
  show (resolveShake (resolveArm (resolveSprint (resolveMode (resolveAction s v))) dt)
    dt).DesiredArmLength = _
  rw [h3]
  show (resolveSprint (resolveMode (resolveAction s v))).DesiredArmLength = _
  rw [h2]
  rfl

theorem resolveFree_TargetArmLength (s : State) (dt : ℚ) (v : FVector) :
    (resolveFree s dt v).TargetArmLength =
      Lerp s.TargetArmLength (targetArm s v) (dt * (5 / 2)) := by
  have h0 : ∀ (x : State) (w : FVector), (resolveAction x w).TargetArmLength = x.TargetArmLength := by
    intro x w; unfold resolveAction; split_ifs <;> rfl
  have h1 : ∀ x : State, (resolveMode x).TargetArmLength = x.TargetArmLength := by
    intro x; unfold resolveMode; dsimp only; split_ifs <;> rfl
  have h2 : ∀ x : State, (resolveSprint x).TargetArmLength = x.TargetArmLength ∧
      (resolveSprint x).DesiredArmLength = x.DesiredArmLength := by
    intro x; unfold resolveSprint; split_ifs <;> exact ⟨rfl, rfl⟩
  have h3 : ∀ (x : State) (d : ℚ), (resolveShake x d).TargetArmLength = x.TargetArmLength := by
    intro x d; unfold resolveShake shakeTarget shakeClampLow shakeClampHigh
    split_ifs <;> rfl
  show (resolveShake (resolveArm (resolveSprint (resolveMode (resolveAction s v))) dt)
    dt).TargetArmLength = _
  rw [h3]
  show Lerp (resolveSprint (resolveMode (resolveAction s v))).TargetArmLength
    (resolveSprint (resolveMode (resolveAction s v))).DesiredArmLength (dt * (5 / 2)) = _
  rw [(h2 _).1, (h2 _).2, h1, h0]
  rfl

/-- The arm length selected for a frame, spelled out by mode, velocity and sprint flag. -/
theorem targetArm_eq (s : State) (v : FVector) :
    targetArm s v =
      if s.PlayerControlState = "Slow" then
        if v = ⟨0, 0, 0⟩ then ArmLengths_Slow 0
        else if s.isSprinting = true then ArmLengths_Slow 2
        else ArmLengths_Slow 1
      else if s.PlayerControlState = "Action" then
        if s.CameraState = "Focus" then ArmLengths_Action 1 else ArmLengths_Action 0
      else s.DesiredArmLength := by
  unfold targetArm resolveMode resolveAction
  by_cases hv : v = ⟨0, 0, 0⟩
  · simp only [hv, if_true]
    split_ifs <;> rfl
  · by_cases hsp : s.isSprinting = true
    · simp only [hv, hsp, if_true, if_false]
      split_ifs <;> first | rfl | (exfalso; simp_all)
    · simp only [hv, hsp, if_false]
      split_ifs <;> first | rfl | (exfalso; simp_all)

/-- With mode, camera mode, sprint flag and velocity unchanged, the next frame selects the same
arm length. -/
theorem targetArm_resolveFree (s : State) (dt : ℚ) (v : FVector) :
    targetArm (resolveFree s dt v) v = targetArm s v := by
  have hc := combat_resolveFree s dt v
  simp only [combat, Prod.mk.injEq] at hc
  obtain ⟨-, -, -, -, -, -, -, -, -, hsp⟩ := hc
  obtain ⟨hm, hcam⟩ := resolveFree_tags s dt v
  rw [targetArm_eq (resolveFree s dt v), hm, hcam, hsp, resolveFree_DesiredArmLength,
    targetArm_eq s v]
  split_ifs <;> rfl

/-! ## Runs of frames outside a static action -/

theorem freeRun_static (s : State) (dt : ℚ) (v : FVector) (n : Nat) :
    (freeRun s dt v n).StaticAction = s.StaticAction := by
  induction n with
  | zero => rfl
  | succ n ih =>
    have hc := congrArg Prod.fst (combat_resolveFree (freeRun s dt v n) dt v)
    exact hc.trans ih

theorem freeRun_shift (s : State) (dt : ℚ) (v : FVector) (n : Nat) :
    freeRun (resolveFree s dt v) dt v n = resolveFree (freeRun s dt v n) dt v := by
  induction n with
  | zero => rfl
  | succ n ih =>
    show resolveFree (freeRun (resolveFree s dt v) dt v n) dt v = _
    rw [ih]
    rfl

/-- Outside a static action, `n` equal frames are `n` passes through the free branch. -/
theorem Ticks_replicate_free {s : State} (hs : s.StaticAction = false) (dt : ℚ) (v : FVector)
    (n : Nat) : Ticks s (List.replicate n (dt, v)) = some (freeRun s dt v n) := by
  induction n generalizing s with
  | zero => rfl
  | succ n ih =>
    have hs1 : (resolveFree s dt v).StaticAction = false :=
      (congrArg Prod.fst (combat_resolveFree s dt v)).trans hs
    rw [List.replicate_succ, Ticks_cons (f := (dt, v)) (Tick_free hs dt v), ih hs1,
      freeRun_shift]
    rfl

theorem targetArm_freeRun (s : State) (dt : ℚ) (v : FVector) (n : Nat) :
    targetArm (freeRun s dt v n) v = targetArm s v := by
  induction n with
  | zero => rfl
  | succ n ih =>
    show targetArm (resolveFree (freeRun s dt v n) dt v) v = _
    rw [targetArm_resolveFree, ih]

/-- The distance to the selected arm length shrinks by the factor `1 - 2.5 dt` every frame. -/
theorem freeRun_arm (s : State) (dt : ℚ) (v : FVector) (n : Nat) :
    (freeRun s dt v n).TargetArmLength - targetArm s v =
      (1 - dt * (5 / 2)) ^ n * (s.TargetArmLength - targetArm s v) := by
  induction n with
  | zero => simp [freeRun]
  | succ n ih =>
    show (resolveFree (freeRun s dt v n) dt v).TargetArmLength - _ = _
    rw [resolveFree_TargetArmLength, targetArm_freeRun, pow_succ]
    unfold Lerp
    linear_combination (1 - dt * (5 / 2)) * ih

/-! ## Claims on the camera and locomotion resolver -/

/-- C11 (as the code behaves): outside a static action and for a frame time between 0 and 0.4
(so that `deltaTime * 2.5` is at most 1), `Tick` moves the camera arm length to
`current + (target - current) * min(1, deltaTime * 2.5)`, where `target` is the arm length
selected for this frame, and the new arm length lies between the old one and the target. -/
theorem C11_arm_eased_towards_target (s : State) (dt : ℚ) (v : FVector)
    (hs : s.StaticAction = false) (h0 : 0 ≤ dt) (h1 : dt ≤ 2 / 5) :
    ∃ s', Tick s dt v = some s' ∧ s'.DesiredArmLength = targetArm s v ∧
      s'.TargetArmLength = s.TargetArmLength +
        (s'.DesiredArmLength - s.TargetArmLength) * min 1 (dt * (5 / 2)) ∧
      ((s.TargetArmLength ≤ s'.TargetArmLength ∧ s'.TargetArmLength ≤ s'.DesiredArmLength) ∨
        (s'.DesiredArmLength ≤ s'.TargetArmLength ∧ s'.TargetArmLength ≤ s.TargetArmLength)) := by
  refine ⟨_, Tick_free hs dt v, resolveFree_DesiredArmLength s dt v, ?_, ?_⟩
  · rw [resolveFree_TargetArmLength, resolveFree_DesiredArmLength,
      min_eq_right (by linarith : dt * (5 / 2) ≤ 1)]
    unfold Lerp; ring
  · rw [resolveFree_TargetArmLength, resolveFree_DesiredArmLength]
    unfold Lerp
    have ha : 0 ≤ dt * (5 / 2) := by linarith
    have hb : dt * (5 / 2) ≤ 1 := by linarith
    rcases le_total s.TargetArmLength (targetArm s v) with h | h
    · left
      constructor <;> nlinarith
    · right
      constructor <;> nlinarith

/-- Witness for C11: a 60 Hz frame at spawn moves the arm from 300 towards the idle length 175
and stays between the two. -/
theorem C11_arm_eased_towards_target_witness :
    ∃ s', Tick BeginPlay (1 / 60) FVector.zero = some s' ∧ s'.DesiredArmLength = 175 ∧
      s'.TargetArmLength = 300 + (175 - 300) * min 1 (1 / 60 * (5 / 2)) := by
  obtain ⟨s', e, hd, ha, -⟩ := C11_arm_eased_towards_target BeginPlay (1 / 60) FVector.zero rfl
    (by norm_num) (by norm_num)
  have ht : targetArm BeginPlay FVector.zero = 175 := by
    rw [targetArm_eq]; simp [BeginPlay, FVector.zero, ArmLengths_Slow]
  rw [ht] at hd
  rw [hd] at ha
  exact ⟨s', e, hd, ha⟩

/-- Counterexample to C11 as stated: at spawn (arm length 300, idle target 175) a one-second
frame gives the arm length `300 + 2.5 * (175 - 300) = -12.5`, which is neither the clamped
value 175 nor between the old arm length and the target. -/
theorem C11_counterexample :
    BeginPlay.StaticAction = false ∧ (0 : ℚ) ≤ 1 ∧ BeginPlay.TargetArmLength = 300 ∧
    ∃ s', Tick BeginPlay 1 FVector.zero = some s' ∧ s'.DesiredArmLength = 175 ∧
      s'.TargetArmLength = -25 / 2 ∧
      s'.TargetArmLength ≠ BeginPlay.TargetArmLength +
        (s'.DesiredArmLength - BeginPlay.TargetArmLength) * min 1 (1 * (5 / 2)) ∧
      s'.TargetArmLength < s'.DesiredArmLength ∧
      s'.DesiredArmLength < BeginPlay.TargetArmLength := by
  have ht : targetArm BeginPlay FVector.zero = 175 := by
    rw [targetArm_eq]; simp [BeginPlay, FVector.zero, ArmLengths_Slow]
  have hd : (resolveFree BeginPlay 1 FVector.zero).DesiredArmLength = 175 := by
    rw [resolveFree_DesiredArmLength, ht]
  have ha : (resolveFree BeginPlay 1 FVector.zero).TargetArmLength = -25 / 2 := by
    rw [resolveFree_TargetArmLength, ht]
    norm_num [Lerp, BeginPlay]
  refine ⟨rfl, by norm_num, rfl, _, Tick_free rfl 1 FVector.zero, hd, ha, ?_, ?_, ?_⟩
  · rw [ha, hd]; norm_num [BeginPlay]
  · rw [ha, hd]; norm_num
  · rw [hd]; norm_num [BeginPlay]


/-- C12: outside a static action, with the velocity (hence the selected arm length `L`) held
fixed and the frame time fixed at 1/60, the arm length after `n` frames satisfies
`arm n - L = (23/24)^n * (arm 0 - L)`; so the distance to `L` never grows, the arm length
never crosses `L`, and from some frame on it is within 0.01 of `L`. -/
theorem C12_arm_converges (s : State) (v : FVector) (hs : s.StaticAction = false) :
    ∃ arm : Nat → ℚ,
      arm 0 = s.TargetArmLength ∧
      (∀ n, ∃ s', Ticks s (List.replicate n (1 / 60, v)) = some s' ∧
        s'.TargetArmLength = arm n ∧ targetArm s' v = targetArm s v) ∧
      (∀ n, arm n - targetArm s v = (23 / 24) ^ n * (arm 0 - targetArm s v)) ∧
      (∀ n, |arm (n + 1) - targetArm s v| ≤ |arm n - targetArm s v|) ∧
      (∀ n, 0 ≤ (arm n - targetArm s v) * (arm 0 - targetArm s v)) ∧
      ∃ N, ∀ n, N ≤ n → |arm n - targetArm s v| < 1 / 100 := by
  have hform : ∀ n, (freeRun s (1 / 60) v n).TargetArmLength - targetArm s v
      = (23 / 24) ^ n * (s.TargetArmLength - targetArm s v) := by
    intro n
    have h := freeRun_arm s (1 / 60) v n
    have hr : (1 : ℚ) - 1 / 60 * (5 / 2) = 23 / 24 := by norm_num
    rw [hr] at h
    exact h
  have habs : ∀ n, |(freeRun s (1 / 60) v n).TargetArmLength - targetArm s v|
      = (23 / 24) ^ n * |s.TargetArmLength - targetArm s v| := by
    intro n
    rw [hform n, abs_mul, abs_of_nonneg (by positivity : (0 : ℚ) ≤ (23 / 24) ^ n)]
  refine ⟨fun n => (freeRun s (1 / 60) v n).TargetArmLength, rfl, ?_, hform, ?_, ?_, ?_⟩
  · intro n
    exact ⟨_, Ticks_replicate_free hs (1 / 60) v n, rfl, targetArm_freeRun s (1 / 60) v n⟩
  · intro n
    show |(freeRun s (1 / 60) v (n + 1)).TargetArmLength - targetArm s v|
      ≤ |(freeRun s (1 / 60) v n).TargetArmLength - targetArm s v|
    rw [habs, habs, pow_succ]
    have hp : (0 : ℚ) ≤ (23 / 24) ^ n := by positivity
    have ha : 0 ≤ |s.TargetArmLength - targetArm s v| := abs_nonneg _
    nlinarith [mul_nonneg hp ha]
  · intro n
    show 0 ≤ ((freeRun s (1 / 60) v n).TargetArmLength - targetArm s v)
      * (s.TargetArmLength - targetArm s v)
    rw [hform n]
    have hp : (0 : ℚ) ≤ (23 / 24) ^ n := by positivity
    nlinarith [mul_nonneg hp (mul_self_nonneg (s.TargetArmLength - targetArm s v))]
  · have hpos : (0 : ℚ) < 1 / 100 / (|s.TargetArmLength - targetArm s v| + 1) := by
      have : (0 : ℚ) ≤ |s.TargetArmLength - targetArm s v| := abs_nonneg _
      positivity
    obtain ⟨N, hN⟩ := exists_pow_lt_of_lt_one hpos (by norm_num : (23 / 24 : ℚ) < 1)
    refine ⟨N, fun n hn => ?_⟩
    show |(freeRun s (1 / 60) v n).TargetArmLength - targetArm s v| < 1 / 100
    rw [habs]
    have ha : 0 ≤ |s.TargetArmLength - targetArm s v| := abs_nonneg _
    have hle : ((23 / 24 : ℚ)) ^ n ≤ (23 / 24) ^ N :=
      pow_le_pow_of_le_one (by norm_num) (by norm_num) hn
    have hlt : ((23 / 24 : ℚ)) ^ n < 1 / 100 / (|s.TargetArmLength - targetArm s v| + 1) :=
      lt_of_le_of_lt hle hN
    rw [lt_div_iff₀ (by linarith)] at hlt
    have hp : (0 : ℚ) ≤ (23 / 24) ^ n := by positivity
    nlinarith

/-- Witness for C12 at spawn, standing still: the arm length, starting at 300, gets and stays
within 0.01 of the idle length 175. -/
theorem C12_arm_converges_witness :
    BeginPlay.StaticAction = false ∧
    ∃ N, ∀ n, N ≤ n → ∃ s', Ticks BeginPlay (List.replicate n (1 / 60, FVector.zero)) = some s' ∧
      |s'.TargetArmLength - 175| < 1 / 100 := by
  refine ⟨rfl, ?_⟩
  obtain ⟨arm, -, hrun, -, -, -, N, hN⟩ := C12_arm_converges BeginPlay FVector.zero rfl
  have ht : targetArm BeginPlay FVector.zero = 175 := by
    rw [targetArm_eq]; simp [BeginPlay, FVector.zero, ArmLengths_Slow]
  refine ⟨N, fun n hn => ?_⟩
  obtain ⟨s', e, ha, -⟩ := hrun n
  refine ⟨s', e, ?_⟩
  rw [ha, ← ht]
  exact hN n hn


/-! ## The shake block -/

/-- What lines 119-177 leave in the fields the shake block reads. -/
theorem beforeShake_fields (s : State) (dt : ℚ) (v : FVector) :
    (beforeShake s dt v).PlayerControlState = s.PlayerControlState ∧
    (beforeShake s dt v).CameraState = s.CameraState ∧
    (beforeShake s dt v).CamShakeRising = s.CamShakeRising ∧
    (beforeShake s dt v).PlayerAction = (resolveAction s v).PlayerAction ∧
    (beforeShake s dt v).CamShakeTiming =
      (if s.PlayerControlState = "Slow" then 0 else s.CamShakeTiming) ∧
    (beforeShake s dt v).DesiredBoomSocketOffset =
      (if s.PlayerControlState = "Slow" then BoomSocketOffset_Slow
       else if s.PlayerControlState = "Action" then
         (if s.CameraState = "Focus" then BoomSocketOffset_Action 1
          else BoomSocketOffset_Action 0)
       else s.DesiredBoomSocketOffset) := by
  have h0 : ∀ (x : State) (w : FVector),
      (resolveAction x w).PlayerControlState = x.PlayerControlState ∧
      (resolveAction x w).CameraState = x.CameraState ∧
      (resolveAction x w).CamShakeRising = x.CamShakeRising ∧
      (resolveAction x w).CamShakeTiming = x.CamShakeTiming ∧
      (resolveAction x w).DesiredBoomSocketOffset = x.DesiredBoomSocketOffset := by
    intro x w; unfold resolveAction; split_ifs <;> exact ⟨rfl, rfl, rfl, rfl, rfl⟩
  have h1 : ∀ x : State,
      (resolveMode x).PlayerControlState = x.PlayerControlState ∧
      (resolveMode x).CameraState = x.CameraState ∧
      (resolveMode x).CamShakeRising = x.CamShakeRising ∧
      (resolveMode x).PlayerAction = x.PlayerAction ∧
      (resolveMode x).CamShakeTiming =
        (if x.PlayerControlState = "Slow" then 0 else x.CamShakeTiming) ∧
      (resolveMode x).DesiredBoomSocketOffset =
        (if x.PlayerControlState = "Slow" then BoomSocketOffset_Slow
         else if x.PlayerControlState = "Action" then
           (if x.CameraState = "Focus" then BoomSocketOffset_Action 1
            else BoomSocketOffset_Action 0)
         else x.DesiredBoomSocketOffset) := by
    intro x; unfold resolveMode; dsimp only
    split_ifs <;> exact ⟨rfl, rfl, rfl, rfl, rfl, rfl⟩
  have h2 : ∀ x : State,
      (resolveSprint x).PlayerControlState = x.PlayerControlState ∧
      (resolveSprint x).CameraState = x.CameraState ∧
      (resolveSprint x).CamShakeRising = x.CamShakeRising ∧
      (resolveSprint x).PlayerAction = x.PlayerAction ∧
      (resolveSprint x).CamShakeTiming = x.CamShakeTiming ∧
      (resolveSprint x).DesiredBoomSocketOffset = x.DesiredBoomSocketOffset := by
    intro x; unfold resolveSprint; split_ifs <;> exact ⟨rfl, rfl, rfl, rfl, rfl, rfl⟩
  obtain ⟨a1, a2, a3, a4, a5⟩ := h0 s v
  obtain ⟨b1, b2, b3, b4, b5, b6⟩ := h1 (resolveAction s v)
  obtain ⟨c1, c2, c3, c4, c5, c6⟩ := h2 (resolveMode (resolveAction s v))
  rw [a1, a2, a4, a5] at *
  exact ⟨c1.trans b1, c2.trans b2, c3.trans (b3.trans a3), c4.trans b4, c5.trans b5,
    c6.trans b6⟩

/-- The two clamps together: what lines 189-190 do to the timing and the direction flag. -/
theorem shakeClamp_fields (y : State) :
    (shakeClampLow (shakeClampHigh y)).CamShakeRising =
      (if y.CamShakeTiming ≥ CamShakeTimingConstraint then false
       else if y.CamShakeTiming ≤ -CamShakeTimingConstraint then true
       else y.CamShakeRising) ∧
    (shakeClampLow (shakeClampHigh y)).CamShakeTiming =
      (if y.CamShakeTiming ≥ CamShakeTimingConstraint then CamShakeTimingConstraint
       else if y.CamShakeTiming ≤ -CamShakeTimingConstraint then -CamShakeTimingConstraint
       else y.CamShakeTiming) ∧
    (shakeClampLow (shakeClampHigh y)).PlayerAction = y.PlayerAction ∧
    (shakeClampLow (shakeClampHigh y)).DesiredBoomSocketOffset = y.DesiredBoomSocketOffset := by
  unfold shakeClampLow shakeClampHigh
  by_cases h1 : y.CamShakeTiming ≥ CamShakeTimingConstraint
  · have h2 : ¬ CamShakeTimingConstraint ≤ -CamShakeTimingConstraint := by
      norm_num [CamShakeTimingConstraint]
    simp only [h1, if_true]
    rw [if_neg h2]
    exact ⟨rfl, rfl, rfl, rfl⟩
  · simp only [h1, if_false]
    by_cases h3 : y.CamShakeTiming ≤ -CamShakeTimingConstraint
    · simp only [h3, if_true]
      exact ⟨trivial, trivial, trivial, trivial⟩
    · simp only [h3, if_false]
      exact ⟨trivial, trivial, trivial, trivial⟩

/-- After the two clamps the timing lies within the constraint. -/
theorem shakeClamp_bounded (y : State) : ShakeBounded (shakeClampLow (shakeClampHigh y)) := by
  unfold ShakeBounded
  rw [(shakeClamp_fields y).2.1]
  have hC : (0 : ℚ) < CamShakeTimingConstraint := by norm_num [CamShakeTimingConstraint]
  split_ifs with h1 h2
  · constructor <;> linarith
  · constructor <;> linarith
  · push_neg at h1 h2
    constructor <;> linarith

theorem shakeTarget_fields (z : State) :
    (shakeTarget z).CamShakeRising = z.CamShakeRising ∧
    ((shakeTarget z).CamShakeTiming = z.CamShakeTiming ∨ (shakeTarget z).CamShakeTiming = 0) := by
  unfold shakeTarget
  split_ifs
  · exact ⟨rfl, Or.inl rfl⟩
  · exact ⟨rfl, Or.inr rfl⟩

theorem ShakeBounded_zero {z : State} (h : z.CamShakeTiming = 0) : ShakeBounded z := by
  unfold ShakeBounded
  rw [h]
  constructor <;> norm_num [CamShakeTimingConstraint]

theorem ShakeBounded_shakeTarget {z : State} (h : ShakeBounded z) :
    ShakeBounded (shakeTarget z) := by
  rcases (shakeTarget_fields z).2 with e | e
  · unfold ShakeBounded; rw [e]; exact h
  · exact ShakeBounded_zero e

/-- The free branch keeps the shake timing within the constraint. -/
theorem ShakeBounded_resolveFree {s : State} (h : ShakeBounded s) (dt : ℚ) (v : FVector) :
    ShakeBounded (resolveFree s dt v) := by
  have hb : ShakeBounded (beforeShake s dt v) := by
    have e := (beforeShake_fields s dt v).2.2.2.2.1
    split_ifs at e
    · exact ShakeBounded_zero e
    · unfold ShakeBounded; rw [e]; exact h
  show ShakeBounded (resolveShake (beforeShake s dt v) dt)
  unfold resolveShake
  split_ifs
  · exact ShakeBounded_shakeTarget (shakeClamp_bounded _)
  · exact hb


/-! ## The attack and block logic leaves the camera fields alone -/

theorem camera_LightAttack {s s' : State} (h : LightAttack s = some s') :
    camera s' = camera s := by
  rcases LightAttack_cases s with e | e | ⟨d, -, -, -, e⟩ <;>
    rw [e] at h <;> cases h <;> rfl

theorem camera_HeavyAttack {s s' : State} (h : HeavyAttack s = some s') :
    camera s' = camera s := by
  rcases HeavyAttack_cases s with e | e | ⟨d, -, -, -, e⟩ <;>
    rw [e] at h <;> cases h <;> rfl

theorem camera_Block (s : State) (b : Bool) : camera (Block s b) = camera s := by
  rcases Bool.eq_false_or_eq_true s.StaticAction with hs | hs
  · rw [Block_static hs]
  · rw [Block_free hs]; rfl

theorem camera_Tick_static {s s' : State} (hs : s.StaticAction = true) {dt : ℚ} {v : FVector}
    (h : Tick s dt v = some s') : camera s' = camera s := by
  by_cases ht : s.StaticActionDurationTimer - dt ≤ 0
  · rw [Tick_ended hs ht] at h; cases h; rfl
  · have ht' : 0 < s.StaticActionDurationTimer - dt := not_le.mp ht
    by_cases hb : s.StaticActionDurationTimer - dt ≤ s.AdditionalAttackBufferTiming
        ∧ s.AdditionalAttackBuffer = true
    · rw [Tick_fired hs ht' hb.1 hb.2] at h
      split_ifs at h
      · exact camera_LightAttack (s := countdown s dt) h
      · exact camera_HeavyAttack (s := countdown s dt) h
      · cases h; rfl
    · rw [Tick_running hs ht' hb] at h; cases h; rfl

theorem ShakeBounded_of_camera {s s' : State} (h : camera s' = camera s) (hb : ShakeBounded s) :
    ShakeBounded s' := by
  have e : s'.CamShakeTiming = s.CamShakeTiming := congrArg Prod.fst h
  unfold ShakeBounded; rw [e]; exact hb

theorem ShakeBounded_Tick {s s' : State} (hb : ShakeBounded s) {dt : ℚ} {v : FVector}
    (h : Tick s dt v = some s') : ShakeBounded s' := by
  rcases Bool.eq_false_or_eq_true s.StaticAction with hs | hs
  · exact ShakeBounded_of_camera (camera_Tick_static hs h) hb
  · rw [Tick_free hs] at h; cases h
    exact ShakeBounded_resolveFree hb dt v

theorem ShakeBounded_of_reachable {s₀ s : State} (h0 : ShakeBounded s₀)
    (h : ReachableFrom s₀ s) : ShakeBounded s := by
  induction h with
  | init => exact h0
  | tick dt v _ h ih => exact ShakeBounded_Tick ih h
  | light _ h ih => exact ShakeBounded_of_camera (camera_LightAttack h) ih
  | heavy _ h ih => exact ShakeBounded_of_camera (camera_HeavyAttack h) ih
  | block b _ ih => exact ShakeBounded_of_camera (camera_Block _ b) ih
  | sprint b _ ih => exact ih

/-- The direction flag after a frame of the free branch. -/
theorem resolveFree_CamShakeRising (s : State) (dt : ℚ) (v : FVector) :
    (resolveFree s dt v).CamShakeRising =
      if s.PlayerControlState = "Action" ∧ s.CameraState = "Free" then
        (if incrementedTiming s dt v ≥ CamShakeTimingConstraint then false
         else if incrementedTiming s dt v ≤ -CamShakeTimingConstraint then true
         else s.CamShakeRising)
      else s.CamShakeRising := by
  obtain ⟨f1, f2, f3, f4, f5, -⟩ := beforeShake_fields s dt v
  show (resolveShake (beforeShake s dt v) dt).CamShakeRising = _
  unfold resolveShake
  rw [f1, f2]
  by_cases hm : s.PlayerControlState = "Action" ∧ s.CameraState = "Free"
  · rw [if_pos hm, if_pos hm, (shakeTarget_fields _).1, (shakeClamp_fields _).1]
    have hne : ¬ s.PlayerControlState = "Slow" := by rw [hm.1]; decide
    rw [if_neg hne] at f5
    have hinc : shakeIncrement (beforeShake s dt v) dt = shakeIncrement (resolveAction s v) dt := by
      unfold shakeIncrement
      rw [f3, f4]
      have : (resolveAction s v).CamShakeRising = s.CamShakeRising := by
        unfold resolveAction; split_ifs <;> rfl
      rw [this]
    have ht : ({ beforeShake s dt v with
        CamShakeTiming := (beforeShake s dt v).CamShakeTiming
          + shakeIncrement (beforeShake s dt v) dt } : State).CamShakeTiming
        = incrementedTiming s dt v := by
      show (beforeShake s dt v).CamShakeTiming + shakeIncrement (beforeShake s dt v) dt = _
      rw [f5, hinc]; rfl
    rw [ht]
    show (if _ then false else if _ then true else (beforeShake s dt v).CamShakeRising) = _
    rw [f3]
  · rw [if_neg hm, if_neg hm, f3]

/-- C13: from any start state whose shake timing is within the constraint (the spawn state has
timing 0), every state reached by `Tick` and the input handlers has
`-C <= CamShakeTiming <= C`; and one `Tick` changes `CamShakeRising` at most once: in the
shake block it becomes false exactly when the incremented timing is at least `C`, true exactly
when the incremented timing is at most `-C`, and is kept otherwise; outside the shake block
(other mode, or during a static action) it is kept. -/
theorem C13_shake_bounded (s₀ s : State) (h0 : ShakeBounded s₀) (h : ReachableFrom s₀ s) :
    (-CamShakeTimingConstraint ≤ s.CamShakeTiming ∧
      s.CamShakeTiming ≤ CamShakeTimingConstraint) ∧
    0 < CamShakeTimingConstraint ∧
    ∀ dt v, ∃ s', Tick s dt v = some s' ∧
      (s.StaticAction = false → s.PlayerControlState = "Action" → s.CameraState = "Free" →
        (incrementedTiming s dt v ≥ CamShakeTimingConstraint → s'.CamShakeRising = false) ∧
        (incrementedTiming s dt v ≤ -CamShakeTimingConstraint → s'.CamShakeRising = true) ∧
        (-CamShakeTimingConstraint < incrementedTiming s dt v →
          incrementedTiming s dt v < CamShakeTimingConstraint →
          s'.CamShakeRising = s.CamShakeRising)) ∧
      (¬(s.StaticAction = false ∧ s.PlayerControlState = "Action" ∧ s.CameraState = "Free") →
        s'.CamShakeRising = s.CamShakeRising) := by
  have hC : (0 : ℚ) < CamShakeTimingConstraint := by norm_num [CamShakeTimingConstraint]
  refine ⟨ShakeBounded_of_reachable h0 h, hC, fun dt v => ?_⟩
  rcases Bool.eq_false_or_eq_true s.StaticAction with hs | hs
  · obtain ⟨s', e⟩ := Tick_total s dt v
    have hc := camera_Tick_static hs e
    simp only [camera, Prod.mk.injEq] at hc
    refine ⟨s', e, fun h1 => ?_, fun _ => hc.2.1⟩
    rw [hs] at h1; cases h1
  · refine ⟨_, Tick_free hs dt v, fun _ hm hcam => ?_, fun hn => ?_⟩
    · rw [resolveFree_CamShakeRising, if_pos ⟨hm, hcam⟩]
      refine ⟨fun h1 => by rw [if_pos h1], fun h2 => ?_, fun h3 h4 => ?_⟩
      · rw [if_neg (by linarith), if_pos h2]
      · rw [if_neg (by linarith), if_neg (by linarith)]
    · rw [resolveFree_CamShakeRising, if_neg (fun hc => hn ⟨hs, hc.1, hc.2⟩)]

/-- Witness for C13: in the "Action" control state with a free camera, a one-second frame while
moving takes the incremented timing to 1/2, above the constraint 1/10, and turns the
oscillator downwards. -/
theorem C13_shake_bounded_witness :
    ShakeBounded actionFree ∧ incrementedTiming actionFree 1 ⟨1, 0, 0⟩ = 1 / 2 ∧
    ∃ s', Tick actionFree 1 ⟨1, 0, 0⟩ = some s' ∧ s'.CamShakeRising = false := by
  have h0 : ShakeBounded actionFree := ShakeBounded_zero rfl
  have hv : ¬ (⟨1, 0, 0⟩ : FVector) = ⟨0, 0, 0⟩ := by
    intro h
    have := congrArg FVector.X h
    norm_num at this
  have hi : incrementedTiming actionFree 1 ⟨1, 0, 0⟩ = 1 / 2 := by
    unfold incrementedTiming shakeIncrement resolveAction
    rw [if_neg hv]
    have hne : ¬ "Moving" = "Sprinting" := by decide
    norm_num [actionFree, BeginPlay, CamShakeDeltaTimeDivision, hne]
  obtain ⟨-, -, k⟩ := C13_shake_bounded actionFree actionFree h0 ReachableFrom.init
  obtain ⟨s', e, k1, -⟩ := k 1 ⟨1, 0, 0⟩
  refine ⟨h0, hi, s', e, (k1 rfl rfl rfl).1 ?_⟩
  rw [hi]; norm_num [CamShakeTimingConstraint]


/-- The incremented timing spelled out by velocity, sprint flag and direction flag. -/
theorem incrementedTiming_eq (s : State) (dt : ℚ) (v : FVector) :
    incrementedTiming s dt v = s.CamShakeTiming +
      (if s.CamShakeRising = true then 1 else -1) *
        (if v = ⟨0, 0, 0⟩ then 0
         else if s.isSprinting = true then dt / CamShakeDeltaTimeDivision 1
         else dt / CamShakeDeltaTimeDivision 0) := by
  have h1 : ¬ "Idle" = "Moving" := by decide
  have h2 : ¬ "Idle" = "Sprinting" := by decide
  have h3 : ¬ "Moving" = "Sprinting" := by decide
  unfold incrementedTiming shakeIncrement resolveAction
  by_cases hv : v = ⟨0, 0, 0⟩
  · simp only [hv, if_true, h1, h2, if_false]
    cases s.CamShakeRising <;> simp
  · by_cases hsp : s.isSprinting = true
    · simp only [hv, hsp, if_true, if_false]
      cases s.CamShakeRising <;> simp
    · simp only [hv, hsp, if_true, if_false, h3]
      cases s.CamShakeRising <;> simp

/-- The shake block in the "Action" control state with a free camera, while moving: the timing
is the clamped incremented timing and the target offset swings around the shaken offset. -/
theorem resolveFree_shake (s : State) (dt : ℚ) (v : FVector)
    (hm : s.PlayerControlState = "Action") (hc : s.CameraState = "Free")
    (hv : v ≠ ⟨0, 0, 0⟩) :
    (resolveFree s dt v).CamShakeTiming =
      (if incrementedTiming s dt v ≥ CamShakeTimingConstraint then CamShakeTimingConstraint
       else if incrementedTiming s dt v ≤ -CamShakeTimingConstraint
         then -CamShakeTimingConstraint
       else incrementedTiming s dt v) ∧
    (resolveFree s dt v).DesiredBoomSocketOffset =
      LerpV shakenAction (FVector.neg shakenAction) (resolveFree s dt v).CamShakeTiming := by
  obtain ⟨f1, f2, f3, f4, f5, f6⟩ := beforeShake_fields s dt v
  have hne : ¬ s.PlayerControlState = "Slow" := by rw [hm]; decide
  have hnf : ¬ s.CameraState = "Focus" := by rw [hc]; decide
  rw [if_neg hne] at f5
  rw [if_neg hne, if_pos hm, if_neg hnf] at f6
  have hinc : shakeIncrement (beforeShake s dt v) dt = shakeIncrement (resolveAction s v) dt := by
    unfold shakeIncrement
    rw [f3, f4]
    have : (resolveAction s v).CamShakeRising = s.CamShakeRising := by
      unfold resolveAction; split_ifs <;> rfl
    rw [this]
  have hpa : (resolveAction s v).PlayerAction = "Moving" ∨
      (resolveAction s v).PlayerAction = "Sprinting" := by
    unfold resolveAction
    rw [if_neg hv]
    split_ifs
    · exact Or.inr rfl
    · exact Or.inl rfl
  obtain ⟨-, g2, g3, g4⟩ := shakeClamp_fields ({ beforeShake s dt v with
    CamShakeTiming := (beforeShake s dt v).CamShakeTiming
      + shakeIncrement (beforeShake s dt v) dt } : State)
  have ht : (beforeShake s dt v).CamShakeTiming + shakeIncrement (beforeShake s dt v) dt
      = incrementedTiming s dt v := by
    rw [f5, hinc]; rfl
  simp only [ht] at g2 g3 g4
  have hres : resolveFree s dt v = resolveOffset (shakeTarget (shakeClampLow (shakeClampHigh
      ({ beforeShake s dt v with CamShakeTiming := incrementedTiming s dt v } : State)))) dt := by
    show resolveOffset (resolveShake (beforeShake s dt v) dt) dt = _
    unfold resolveShake
    rw [if_pos ⟨f1.trans hm, f2.trans hc⟩, ht]
  have hsh : ShakenBoomSocketOffset (shakeClampLow (shakeClampHigh
      ({ beforeShake s dt v with CamShakeTiming := incrementedTiming s dt v } : State)))
      = shakenAction := by
    unfold ShakenBoomSocketOffset
    rw [g3, g4]
    show (if (beforeShake s dt v).PlayerAction = "Moving" ∨
      (beforeShake s dt v).PlayerAction = "Sprinting" then
        FVector.add (beforeShake s dt v).DesiredBoomSocketOffset ⟨0, 0, 1⟩
      else (beforeShake s dt v).DesiredBoomSocketOffset) = _
    rw [f4, if_pos hpa, f6]
    rfl
  have hdiff : shakenAction ≠ (shakeClampLow (shakeClampHigh
      ({ beforeShake s dt v with CamShakeTiming := incrementedTiming s dt v } : State))
      ).DesiredBoomSocketOffset := by
    rw [g4]
    show shakenAction ≠ (beforeShake s dt v).DesiredBoomSocketOffset
    rw [f6]
    intro h
    have := congrArg FVector.Z h
    norm_num [shakenAction, FVector.add, BoomSocketOffset_Action] at this
  have htarget : shakeTarget (shakeClampLow (shakeClampHigh
      ({ beforeShake s dt v with CamShakeTiming := incrementedTiming s dt v } : State)))
      = { shakeClampLow (shakeClampHigh
        ({ beforeShake s dt v with CamShakeTiming := incrementedTiming s dt v } : State)) with
        DesiredBoomSocketOffset := LerpV shakenAction (FVector.neg shakenAction)
          (shakeClampLow (shakeClampHigh ({ beforeShake s dt v with
            CamShakeTiming := incrementedTiming s dt v } : State))).CamShakeTiming } := by
    unfold shakeTarget
    rw [hsh, if_pos hdiff]
  rw [hres, htarget]
  exact ⟨g2, rfl⟩


/-- The swing around the shaken offset is a scaling: `lerp(a, -a, t) = (1 - 2 t) a`. -/
theorem LerpV_neg (a : FVector) (t : ℚ) :
    LerpV a (FVector.neg a) t = FVector.smul (1 - 2 * t) a := by
  unfold LerpV FVector.add FVector.smul FVector.sub FVector.neg
  congr 1 <;> ring

/-- C14 (as the code behaves): in the "Action" control state with a free camera, while moving or
sprinting, the target socket offset of a `Tick` is `lerp(shaken, -shaken, shakeTiming)` with
`shaken` the table offset raised by `(0,0,1)`, that is `(1 - 2 shakeTiming) * shaken`. With
the timing confined to `[-C, C]`, `C = 0.1`, the target sweeps between `0.8 * shaken` (timing
`C`) and `1.2 * shaken` (timing `-C`); it equals `shaken` only at timing 0 and never reaches
`-shaken`. -/
theorem C14_shake_target (s : State) (dt : ℚ) (v : FVector) (hs : s.StaticAction = false)
    (hm : s.PlayerControlState = "Action") (hc : s.CameraState = "Free")
    (hv : v ≠ ⟨0, 0, 0⟩) :
    ∃ s', Tick s dt v = some s' ∧
      (s'.PlayerAction = "Moving" ∨ s'.PlayerAction = "Sprinting") ∧
      s'.DesiredBoomSocketOffset =
        LerpV shakenAction (FVector.neg shakenAction) s'.CamShakeTiming ∧
      s'.DesiredBoomSocketOffset = FVector.smul (1 - 2 * s'.CamShakeTiming) shakenAction ∧
      -CamShakeTimingConstraint ≤ s'.CamShakeTiming ∧
      s'.CamShakeTiming ≤ CamShakeTimingConstraint ∧
      (s'.CamShakeTiming = CamShakeTimingConstraint →
        s'.DesiredBoomSocketOffset = FVector.smul (4 / 5) shakenAction) ∧
      (s'.CamShakeTiming = -CamShakeTimingConstraint →
        s'.DesiredBoomSocketOffset = FVector.smul (6 / 5) shakenAction) ∧
      (s'.DesiredBoomSocketOffset = shakenAction ↔ s'.CamShakeTiming = 0) ∧
      s'.DesiredBoomSocketOffset ≠ FVector.neg shakenAction := by
  obtain ⟨h1, h2⟩ := resolveFree_shake s dt v hm hc hv
  have hb : ShakeBounded (resolveFree s dt v) := by
    unfold ShakeBounded
    rw [h1]
    have hC : (0 : ℚ) < CamShakeTimingConstraint := by norm_num [CamShakeTimingConstraint]
    split_ifs with a b
    · constructor <;> linarith
    · constructor <;> linarith
    · push_neg at a b
      constructor <;> linarith
  have h3 : (resolveFree s dt v).DesiredBoomSocketOffset =
      FVector.smul (1 - 2 * (resolveFree s dt v).CamShakeTiming) shakenAction := by
    rw [h2, LerpV_neg]
  have hz : ∀ k : ℚ, (FVector.smul k shakenAction).Z = k * 51 := by
    intro k
    norm_num [FVector.smul, shakenAction, FVector.add, BoomSocketOffset_Action]
  refine ⟨_, Tick_free hs dt v, ?_, h2, h3, hb.1, hb.2, ?_, ?_, ?_, ?_⟩
  · rw [resolveFree_PlayerAction, if_neg hv]
    split_ifs
    · exact Or.inr rfl
    · exact Or.inl rfl
  · intro e
    rw [h3, e]
    norm_num [CamShakeTimingConstraint]
  · intro e
    rw [h3, e]
    norm_num [CamShakeTimingConstraint]
  · constructor
    · intro e
      have := congrArg FVector.Z e
      rw [h3, hz] at this
      have hz1 : shakenAction.Z = 51 := by
        norm_num [shakenAction, FVector.add, BoomSocketOffset_Action]
      rw [hz1] at this
      linarith
    · intro e
      rw [h3, e]
      norm_num [FVector.smul, shakenAction, FVector.add, BoomSocketOffset_Action]
  · intro e
    have := congrArg FVector.Z e
    rw [h3, hz] at this
    have hz1 : (FVector.neg shakenAction).Z = -51 := by
      norm_num [shakenAction, FVector.add, FVector.neg, BoomSocketOffset_Action]
    rw [hz1] at this
    have := hb.2
    norm_num [CamShakeTimingConstraint] at this
    linarith

/-- Witness for C14: one 60 Hz frame of walking from the "Action" spawn state. -/
theorem C14_shake_target_witness :
    ∃ s', Tick actionFree (1 / 60) ⟨1, 0, 0⟩ = some s' ∧
      s'.DesiredBoomSocketOffset =
        LerpV shakenAction (FVector.neg shakenAction) s'.CamShakeTiming ∧
      s'.DesiredBoomSocketOffset ≠ FVector.neg shakenAction := by
  have hv : (⟨1, 0, 0⟩ : FVector) ≠ ⟨0, 0, 0⟩ := by
    intro h
    have := congrArg FVector.X h
    norm_num at this
  obtain ⟨s', e, -, h2, -, -, -, -, -, -, h9⟩ :=
    C14_shake_target actionFree (1 / 60) ⟨1, 0, 0⟩ rfl rfl rfl hv
  exact ⟨s', e, h2, h9⟩


/-- Counterexample to C14 as stated: walking in the "Action" control state with a free camera,
two one-second frames drive the shake timing to its upper end `C` and then to its lower end
`-C`. With `shaken = (0,0,51)` the target offset is `(0,0,40.8)` at one end and `(0,0,61.2)`
at the other: it is `shaken` at neither end, and `-shaken = (0,0,-51)` at neither end. -/
theorem C14_counterexample :
    shakenAction = ⟨0, 0, 51⟩ ∧ FVector.neg shakenAction = ⟨0, 0, -51⟩ ∧
    ∃ s1 s2, Tick actionFree 1 ⟨1, 0, 0⟩ = some s1 ∧ s1.PlayerAction = "Moving" ∧
      s1.CamShakeTiming = CamShakeTimingConstraint ∧
      s1.DesiredBoomSocketOffset = ⟨0, 0, 204 / 5⟩ ∧
      Tick s1 1 ⟨1, 0, 0⟩ = some s2 ∧ s2.PlayerAction = "Moving" ∧
      s2.CamShakeTiming = -CamShakeTimingConstraint ∧
      s2.DesiredBoomSocketOffset = ⟨0, 0, 306 / 5⟩ := by
  have hv : (⟨1, 0, 0⟩ : FVector) ≠ ⟨0, 0, 0⟩ := by
    intro h
    have := congrArg FVector.X h
    norm_num at this
  have hsh : shakenAction = ⟨0, 0, 51⟩ := by
    norm_num [shakenAction, FVector.add, BoomSocketOffset_Action]
  -- first frame
  have hi1 : incrementedTiming actionFree 1 ⟨1, 0, 0⟩ = 1 / 2 := by
    rw [incrementedTiming_eq, if_neg hv]
    norm_num [actionFree, BeginPlay, CamShakeDeltaTimeDivision]
  obtain ⟨t1, o1⟩ := resolveFree_shake actionFree 1 ⟨1, 0, 0⟩ rfl rfl hv
  rw [hi1, if_pos (by norm_num [CamShakeTimingConstraint])] at t1
  have r1 := resolveFree_CamShakeRising actionFree 1 ⟨1, 0, 0⟩
  rw [if_pos ⟨rfl, rfl⟩, hi1, if_pos (by norm_num [CamShakeTimingConstraint])] at r1
  obtain ⟨m1, c1⟩ := resolveFree_tags actionFree 1 ⟨1, 0, 0⟩
  have k1 := combat_resolveFree actionFree 1 ⟨1, 0, 0⟩
  simp only [combat, Prod.mk.injEq] at k1
  obtain ⟨st1, -, -, -, -, -, -, -, -, sp1⟩ := k1
  have p1 := resolveFree_PlayerAction actionFree 1 ⟨1, 0, 0⟩
  rw [if_neg hv, if_neg (by decide)] at p1
  -- second frame
  have hi2 : incrementedTiming (resolveFree actionFree 1 ⟨1, 0, 0⟩) 1 ⟨1, 0, 0⟩ = -2 / 5 := by
    rw [incrementedTiming_eq, if_neg hv, t1, r1, sp1]
    norm_num [actionFree, BeginPlay, CamShakeDeltaTimeDivision, CamShakeTimingConstraint]
  obtain ⟨t2, o2⟩ := resolveFree_shake (resolveFree actionFree 1 ⟨1, 0, 0⟩) 1 ⟨1, 0, 0⟩
    (m1.trans rfl) (c1.trans rfl) hv
  rw [hi2, if_neg (by norm_num [CamShakeTimingConstraint]),
    if_pos (by norm_num [CamShakeTimingConstraint])] at t2
  have p2 := resolveFree_PlayerAction (resolveFree actionFree 1 ⟨1, 0, 0⟩) 1 ⟨1, 0, 0⟩
  rw [if_neg hv, sp1, if_neg (by decide)] at p2
  refine ⟨hsh, ?_, _, _, Tick_free rfl 1 _, p1, t1, ?_, Tick_free (st1.trans rfl) 1 _, p2, t2, ?_⟩
  · rw [hsh]; norm_num [FVector.neg]
  · rw [o1, t1, LerpV_neg, hsh]
    norm_num [FVector.smul, CamShakeTimingConstraint]
  · rw [o2, t2, LerpV_neg, hsh]
    norm_num [FVector.smul, CamShakeTimingConstraint]


/-! ## Locomotion -/

/-- In the "Slow" control state the shake block is skipped: the target offset is the slow
offset and the shake timing is reset. -/
theorem resolveFree_slow (s : State) (dt : ℚ) (v : FVector)
    (hm : s.PlayerControlState = "Slow") :
    (resolveFree s dt v).DesiredBoomSocketOffset = BoomSocketOffset_Slow ∧
    (resolveFree s dt v).CamShakeTiming = 0 := by
  obtain ⟨f1, -, -, -, f5, f6⟩ := beforeShake_fields s dt v
  rw [if_pos hm] at f5 f6
  have hna : ¬((beforeShake s dt v).PlayerControlState = "Action" ∧
      (beforeShake s dt v).CameraState = "Free") := by
    rw [f1, hm]
    intro h
    exact absurd h.1 (by decide)
  have hres : resolveFree s dt v = resolveOffset (beforeShake s dt v) dt := by
    show resolveOffset (resolveShake (beforeShake s dt v) dt) dt = _
    unfold resolveShake
    rw [if_neg hna]
  rw [hres]
  exact ⟨f6, f5⟩

/-- The move speed written by a frame of the free branch in one of the two control states. -/
theorem resolveFree_MaxWalkSpeed (s : State) (dt : ℚ) (v : FVector)
    (hm : s.PlayerControlState = "Slow" ∨ s.PlayerControlState = "Action") :
    (resolveFree s dt v).MaxWalkSpeed =
      (if s.PlayerControlState = "Slow" then MoveSpeed_Slow else MoveSpeed_Action) +
      (if s.isSprinting = true then SprintSpeedAddition else 0) := by
  have h3 : ∀ (x : State) (d : ℚ), (resolveShake x d).MaxWalkSpeed = x.MaxWalkSpeed := by
    intro x d; unfold resolveShake shakeTarget shakeClampLow shakeClampHigh
    split_ifs <;> rfl
  have h0 : ∀ (x : State) (w : FVector),
      (resolveAction x w).PlayerControlState = x.PlayerControlState ∧
      (resolveAction x w).isSprinting = x.isSprinting := by
    intro x w; unfold resolveAction; split_ifs <;> exact ⟨rfl, rfl⟩
  have h1 : ∀ x : State, (x.PlayerControlState = "Slow" ∨ x.PlayerControlState = "Action") →
      (resolveMode x).MaxWalkSpeed =
        (if x.PlayerControlState = "Slow" then MoveSpeed_Slow else MoveSpeed_Action) ∧
      (resolveMode x).isSprinting = x.isSprinting := by
    intro x hx; unfold resolveMode; dsimp only
    rcases hx with hx | hx
    · rw [if_pos hx, if_pos hx]
      split_ifs <;> exact ⟨rfl, rfl⟩
    · have hne : ¬ x.PlayerControlState = "Slow" := by rw [hx]; decide
      rw [if_neg hne, if_pos hx, if_neg hne]
      split_ifs <;> exact ⟨rfl, rfl⟩
  show (resolveShake (beforeShake s dt v) dt).MaxWalkSpeed = _
  rw [h3]
  show (resolveSprint (resolveMode (resolveAction s v))).MaxWalkSpeed = _
  obtain ⟨a1, a2⟩ := h0 s v
  obtain ⟨b1, b2⟩ := h1 (resolveAction s v) (by rw [a1]; exact hm)
  rw [a1] at b1
  unfold resolveSprint
  rw [b2, a2]
  by_cases hsp : s.isSprinting = true
  · rw [if_pos hsp, if_pos hsp]
    show (resolveMode (resolveAction s v)).MaxWalkSpeed + SprintSpeedAddition = _
    rw [b1]
  · rw [if_neg hsp, if_neg hsp, b1, add_zero]

/-- C15: outside a static action, a `Tick` sets `PlayerAction` to Idle when the velocity is
exactly zero, else to Sprinting when the sprint flag is set, else to Moving; in the "Slow"
control state its target arm length is `ArmLengths_Slow[0]`, `[1]`, `[2]` for Idle, Moving,
Sprinting, its target socket offset is `BoomSocketOffset_Slow` and `CamShakeTiming` is 0; so
a frame at rest followed by a frame with nonzero velocity and no sprint takes the tag from
Idle to Moving and the target arm length from `ArmLengths_Slow[0]` to `ArmLengths_Slow[1]`. -/
theorem C15_action_tag_and_slow_targets (s : State) (dt : ℚ) (v : FVector)
    (hs : s.StaticAction = false) :
    ∃ s', Tick s dt v = some s' ∧
      s'.PlayerAction =
        (if v = ⟨0, 0, 0⟩ then "Idle"
         else if s.isSprinting = true then "Sprinting" else "Moving") ∧
      (s.PlayerControlState = "Slow" →
        s'.DesiredArmLength =
          (if v = ⟨0, 0, 0⟩ then ArmLengths_Slow 0
           else if s.isSprinting = true then ArmLengths_Slow 2 else ArmLengths_Slow 1) ∧
        s'.DesiredBoomSocketOffset = BoomSocketOffset_Slow ∧ s'.CamShakeTiming = 0 ∧
        (v = ⟨0, 0, 0⟩ → s.isSprinting = false → ∀ dt2 w, w ≠ ⟨0, 0, 0⟩ →
          ∃ s'', Tick s' dt2 w = some s'' ∧
            s'.PlayerAction = "Idle" ∧ s''.PlayerAction = "Moving" ∧
            s'.DesiredArmLength = ArmLengths_Slow 0 ∧
            s''.DesiredArmLength = ArmLengths_Slow 1)) := by
  have hk := combat_resolveFree s dt v
  simp only [combat, Prod.mk.injEq] at hk
  obtain ⟨st1, -, -, -, -, -, -, -, -, sp1⟩ := hk
  refine ⟨_, Tick_free hs dt v, resolveFree_PlayerAction s dt v, fun hm => ?_⟩
  have hd : (resolveFree s dt v).DesiredArmLength =
      (if v = ⟨0, 0, 0⟩ then ArmLengths_Slow 0
       else if s.isSprinting = true then ArmLengths_Slow 2 else ArmLengths_Slow 1) := by
    rw [resolveFree_DesiredArmLength, targetArm_eq, if_pos hm]
  refine ⟨hd, (resolveFree_slow s dt v hm).1, (resolveFree_slow s dt v hm).2, ?_⟩
  intro hv hsp dt2 w hw
  have hsp' : ¬ (resolveFree s dt v).isSprinting = true := by rw [sp1, hsp]; simp
  have hsp0 : ¬ s.isSprinting = true := by rw [hsp]; simp
  refine ⟨_, Tick_free (st1.trans hs) dt2 w, ?_, ?_, ?_, ?_⟩
  · rw [resolveFree_PlayerAction, if_pos hv]
  · rw [resolveFree_PlayerAction, if_neg hw, if_neg hsp']
  · rw [hd, if_pos hv]
  · rw [resolveFree_DesiredArmLength, targetArm_eq, (resolveFree_tags s dt v).1, if_pos hm,
      if_neg hw, if_neg hsp']

/-- Witness for C15 at spawn: a frame at rest, then a frame walking. -/
theorem C15_action_tag_and_slow_targets_witness :
    ∃ s' s'', Tick BeginPlay (1 / 60) ⟨0, 0, 0⟩ = some s' ∧
      Tick s' (1 / 60) ⟨1, 0, 0⟩ = some s'' ∧
      s'.PlayerAction = "Idle" ∧ s''.PlayerAction = "Moving" ∧
      s'.DesiredArmLength = 175 ∧ s''.DesiredArmLength = 225 := by
  have hv : (⟨1, 0, 0⟩ : FVector) ≠ ⟨0, 0, 0⟩ := by
    intro h
    have := congrArg FVector.X h
    norm_num at this
  obtain ⟨s', e, -, k⟩ :=
    C15_action_tag_and_slow_targets BeginPlay (1 / 60) ⟨0, 0, 0⟩ rfl
  obtain ⟨-, -, -, k2⟩ := k rfl
  obtain ⟨s'', e2, a1, a2, a3, a4⟩ := k2 rfl rfl (1 / 60) ⟨1, 0, 0⟩ hv
  refine ⟨s', s'', e, e2, a1, a2, ?_, ?_⟩
  · rw [a3]; rfl
  · rw [a4]; rfl

/-- C16: outside a static action, in the "Slow" or the "Action" control state, the move speed
a `Tick` writes is the configured speed of the control state plus `SprintSpeedAddition`
exactly when the sprint flag is set; it does not involve the previous move speed, so a
further `Tick` writes the same speed again. -/
theorem C16_move_speed (s : State) (dt : ℚ) (v : FVector) (hs : s.StaticAction = false)
    (hm : s.PlayerControlState = "Slow" ∨ s.PlayerControlState = "Action") :
    ∃ s', Tick s dt v = some s' ∧
      s'.MaxWalkSpeed =
        (if s.PlayerControlState = "Slow" then MoveSpeed_Slow else MoveSpeed_Action) +
        (if s.isSprinting = true then SprintSpeedAddition else 0) ∧
      ∀ dt2 w, ∃ s'', Tick s' dt2 w = some s'' ∧ s''.MaxWalkSpeed = s'.MaxWalkSpeed := by
  have hk := combat_resolveFree s dt v
  simp only [combat, Prod.mk.injEq] at hk
  obtain ⟨st1, -, -, -, -, -, -, -, -, sp1⟩ := hk
  have hm1 := (resolveFree_tags s dt v).1
  refine ⟨_, Tick_free hs dt v, resolveFree_MaxWalkSpeed s dt v hm, fun dt2 w => ?_⟩
  refine ⟨_, Tick_free (st1.trans hs) dt2 w, ?_⟩
  rw [resolveFree_MaxWalkSpeed (resolveFree s dt v) dt2 w (by rw [hm1]; exact hm), hm1, sp1,
    resolveFree_MaxWalkSpeed s dt v hm]

/-- Witness for C16: sprinting from spawn gives 400 in the "Slow" control state, frame after
frame. -/
theorem C16_move_speed_witness :
    ∃ s' s'', Tick (SprintingFlag BeginPlay true) (1 / 60) ⟨1, 0, 0⟩ = some s' ∧
      s'.MaxWalkSpeed = 400 ∧ Tick s' (1 / 60) ⟨1, 0, 0⟩ = some s'' ∧
      s''.MaxWalkSpeed = 400 := by
  obtain ⟨s', e, h1, k⟩ := C16_move_speed (SprintingFlag BeginPlay true) (1 / 60) ⟨1, 0, 0⟩
    rfl (Or.inl rfl)
  obtain ⟨s'', e2, h2⟩ := k (1 / 60) ⟨1, 0, 0⟩
  have hv : s'.MaxWalkSpeed = 400 := by
    rw [h1]
    norm_num [SprintingFlag, BeginPlay, MoveSpeed_Slow, SprintSpeedAddition]
  exact ⟨s', s'', e, hv, e2, h2.trans hv⟩


/-! ## The attack trigger -/

theorem trigger_LightAttack {s s' : State} (ht : s.AttackMechanicsTrigger = true)
    (h : LightAttack s = some s') : s'.AttackMechanicsTrigger = true := by
  rcases LightAttack_cases s with e | e | ⟨d, -, -, -, e⟩ <;>
    rw [e] at h <;> cases h
  · exact ht
  · exact ht
  · rfl

theorem trigger_HeavyAttack {s s' : State} (ht : s.AttackMechanicsTrigger = true)
    (h : HeavyAttack s = some s') : s'.AttackMechanicsTrigger = true := by
  rcases HeavyAttack_cases s with e | e | ⟨d, -, -, -, e⟩ <;>
    rw [e] at h <;> cases h
  · exact ht
  · exact ht
  · rfl

theorem trigger_Tick {s s' : State} (ht : s.AttackMechanicsTrigger = true) {dt : ℚ}
    {v : FVector} (h : Tick s dt v = some s') : s'.AttackMechanicsTrigger = true := by
  rcases Bool.eq_false_or_eq_true s.StaticAction with hs | hs
  · by_cases hz : s.StaticActionDurationTimer - dt ≤ 0
    · rw [Tick_ended hs hz] at h; cases h; exact ht
    · have hz' : 0 < s.StaticActionDurationTimer - dt := not_le.mp hz
      by_cases hb : s.StaticActionDurationTimer - dt ≤ s.AdditionalAttackBufferTiming
          ∧ s.AdditionalAttackBuffer = true
      · rw [Tick_fired hs hz' hb.1 hb.2] at h
        split_ifs at h
        · exact trigger_LightAttack (s := countdown s dt) ht h
        · exact trigger_HeavyAttack (s := countdown s dt) ht h
        · cases h; exact ht
      · rw [Tick_running hs hz' hb] at h; cases h; exact ht
  · rw [Tick_free hs] at h; cases h
    have hc := combat_resolveFree s dt v
    simp only [combat, Prod.mk.injEq] at hc
    exact hc.2.2.2.2.2.2.2.1.trans ht

theorem trigger_Block {s : State} (ht : s.AttackMechanicsTrigger = true) (b : Bool) :
    (Block s b).AttackMechanicsTrigger = true := by
  rcases Bool.eq_false_or_eq_true s.StaticAction with hs | hs
  · rw [Block_static hs]; exact ht
  · rw [Block_free hs]; exact ht

/-- Once raised, the trigger is never lowered by the character's own code. -/
theorem trigger_of_reachable {a s : State} (ht : a.AttackMechanicsTrigger = true)
    (h : ReachableFrom a s) : s.AttackMechanicsTrigger = true := by
  induction h with
  | init => exact ht
  | tick dt v _ h ih => exact trigger_Tick ih h
  | light _ h ih => exact trigger_LightAttack ih h
  | heavy _ h ih => exact trigger_HeavyAttack ih h
  | block b _ ih => exact trigger_Block ih b
  | sprint b _ ih => exact ih

/-- C17 (as the code behaves): a request that starts a step (the chain index grows) raises
`AttackMechanicsTrigger`, and no later `Tick` or input handler of the character lowers it: it
stays true in every state reached afterwards, until a consumer outside this code clears it. -/
theorem C17_trigger_stays_raised (s a s' : State)
    (h : LightAttack s = some a ∨ HeavyAttack s = some a)
    (hstart : a.LightAttackIndex + a.HeavyAttackIndex
      = s.LightAttackIndex + s.HeavyAttackIndex + 1)
    (hr : ReachableFrom a s') :
    a.AttackMechanicsTrigger = true ∧ s'.AttackMechanicsTrigger = true := by
  have ha : a.AttackMechanicsTrigger = true := by
    rcases h with h | h
    · rcases LightAttack_cases s with e | e | ⟨d, -, -, -, e⟩ <;>
        rw [e] at h <;> cases h
      · omega
      · change s.LightAttackIndex + s.HeavyAttackIndex = _ at hstart
        omega
      · rfl
    · rcases HeavyAttack_cases s with e | e | ⟨d, -, -, -, e⟩ <;>
        rw [e] at h <;> cases h
      · omega
      · change s.LightAttackIndex + s.HeavyAttackIndex = _ at hstart
        omega
      · rfl
  exact ⟨ha, trigger_of_reachable ha hr⟩

/-- Witness for C17: the light attack pressed at spawn raises the trigger, and it is still
raised after a quarter-second frame and after the action has ended. -/
theorem C17_trigger_stays_raised_witness :
    lightStep0.AttackMechanicsTrigger = true ∧
    (staticEnded (countdown lightStep0 (1 / 4))).StaticAction = false ∧
    (staticEnded (countdown lightStep0 (1 / 4))).AttackMechanicsTrigger = true := by
  have r1 : Tick lightStep0 (1 / 4) FVector.zero = some (countdown lightStep0 (1 / 4)) :=
    Tick_running rfl (by norm_num [lightStep0, lightStarted])
      (by norm_num [lightStep0, lightStarted]) FVector.zero
  have r2 : Tick (countdown lightStep0 (1 / 4)) 1 FVector.zero
      = some (staticEnded (countdown lightStep0 (1 / 4))) :=
    Tick_ended rfl (by norm_num [countdown, lightStep0, lightStarted]) FVector.zero
  have hr : ReachableFrom lightStep0 (staticEnded (countdown lightStep0 (1 / 4))) :=
    ReachableFrom.tick 1 FVector.zero
      (ReachableFrom.tick (1 / 4) FVector.zero ReachableFrom.init r1) r2
  obtain ⟨h1, h2⟩ := C17_trigger_stays_raised BeginPlay lightStep0 _
    (Or.inl LightAttack_BeginPlay) rfl hr
  exact ⟨h1, rfl, h2⟩

/-- Counterexample to C17 as stated: the light attack pressed at spawn raises the trigger; the
next `Tick` (a quarter of a second) starts no step, the index and the tag are unchanged, and
the trigger is still true after it. -/
theorem C17_counterexample :
    LightAttack BeginPlay = some lightStep0 ∧ lightStep0.AttackMechanicsTrigger = true ∧
    Tick lightStep0 (1 / 4) FVector.zero = some (countdown lightStep0 (1 / 4)) ∧
    (countdown lightStep0 (1 / 4)).LightAttackIndex = lightStep0.LightAttackIndex ∧
    (countdown lightStep0 (1 / 4)).HeavyAttackIndex = lightStep0.HeavyAttackIndex ∧
    (countdown lightStep0 (1 / 4)).PlayerAction = lightStep0.PlayerAction ∧
    (countdown lightStep0 (1 / 4)).AttackMechanicsTrigger = true :=
  ⟨LightAttack_BeginPlay, rfl,
    Tick_running rfl (by norm_num [lightStep0, lightStarted])
      (by norm_num [lightStep0, lightStarted]) FVector.zero,
    rfl, rfl, rfl, rfl⟩


/-! ## The attack buffer -/

theorem BufferInv_BeginPlay : BufferInv BeginPlay := by
  constructor
  · intro h; cases h
  · intro h; cases h

theorem BufferInv_of_combat {s s' : State} (h : combat s' = combat s) (hb : BufferInv s) :
    BufferInv s' := by
  simp only [combat, Prod.mk.injEq] at h
  obtain ⟨h1, -, h3, h4, h5, -, h7, -, -, -⟩ := h
  obtain ⟨a, b⟩ := hb
  constructor
  · rw [h1, h3, h4]; exact a
  · rw [h5, h7, h3, h4]; exact b

theorem BufferInv_LightAttack {s s' : State} (hi : Inv s) (hb : BufferInv s)
    (h : LightAttack s = some s') : BufferInv s' := by
  by_cases hg : s.HeavyAttackIndex = 0 ∧ s.LightAttackIndex < LightAttackChainLength
  · by_cases ht : s.StaticActionDurationTimer ≤ s.AdditionalAttackBufferTiming
    · obtain ⟨d, -, -, e⟩ := LightAttack_started hg.1 hg.2 ht
      rw [e] at h; cases h
      constructor
      · intro _; exact Or.inl (Nat.succ_pos _)
      · intro hc; exact absurd hc (by simp [lightStarted])
    · rw [LightAttack_buffered hg.1 hg.2 ht] at h; cases h
      have hpos : 0 < s.StaticActionDurationTimer :=
        lt_of_le_of_lt hi.window_nonneg (not_le.mp ht)
      have hL : 0 < s.LightAttackIndex := by
        rcases hb.active (hi.static_iff.mpr hpos) with h0 | h0
        · exact h0
        · omega
      exact ⟨hb.active, fun _ => Or.inl ⟨rfl, hL, hg.2, hg.1⟩⟩
  · rw [LightAttack_ignored hg] at h; cases h
    exact hb

theorem BufferInv_HeavyAttack {s s' : State} (hi : Inv s) (hb : BufferInv s)
    (h : HeavyAttack s = some s') : BufferInv s' := by
  by_cases hg : s.LightAttackIndex = 0 ∧ s.HeavyAttackIndex < HeavyAttackChainLength
  · by_cases ht : s.StaticActionDurationTimer ≤ s.AdditionalAttackBufferTiming
    · obtain ⟨d, -, -, e⟩ := HeavyAttack_started hg.1 hg.2 ht
      rw [e] at h; cases h
      constructor
      · intro _; exact Or.inr (Nat.succ_pos _)
      · intro hc; exact absurd hc (by simp [heavyStarted])
    · rw [HeavyAttack_buffered hg.1 hg.2 ht] at h; cases h
      have hpos : 0 < s.StaticActionDurationTimer :=
        lt_of_le_of_lt hi.window_nonneg (not_le.mp ht)
      have hH : 0 < s.HeavyAttackIndex := by
        rcases hb.active (hi.static_iff.mpr hpos) with h0 | h0
        · omega
        · exact h0
      exact ⟨hb.active, fun _ => Or.inr ⟨rfl, hH, hg.2, hg.1⟩⟩
  · rw [HeavyAttack_ignored hg] at h; cases h
    exact hb

theorem BufferInv_Tick {s s' : State} (hi : Inv s) (hb : BufferInv s) {dt : ℚ} {v : FVector}
    (h : Tick s dt v = some s') : BufferInv s' := by
  rcases Bool.eq_false_or_eq_true s.StaticAction with hs | hs
  · by_cases hz : s.StaticActionDurationTimer - dt ≤ 0
    · rw [Tick_ended hs hz] at h; cases h
      constructor
      · intro hc; exact absurd hc (by simp [staticEnded])
      · intro hc; exact absurd hc (by simp [staticEnded])
    · have hz' : 0 < s.StaticActionDurationTimer - dt := not_le.mp hz
      have hic : Inv (countdown s dt) := Inv_countdown hi hs hz'
      have hbc : BufferInv (countdown s dt) := ⟨hb.active, hb.pending⟩
      by_cases hw : s.StaticActionDurationTimer - dt ≤ s.AdditionalAttackBufferTiming
          ∧ s.AdditionalAttackBuffer = true
      · rw [Tick_fired hs hz' hw.1 hw.2] at h
        split_ifs at h
        · exact BufferInv_LightAttack hic hbc h
        · exact BufferInv_HeavyAttack hic hbc h
        · cases h; exact hbc
      · rw [Tick_running hs hz' hw] at h; cases h
        exact hbc
  · rw [Tick_free hs] at h; cases h
    exact BufferInv_of_combat (combat_resolveFree s dt v) hb

theorem BufferInv_Block {s : State} (hb : BufferInv s) (b : Bool) : BufferInv (Block s b) := by
  rcases Bool.eq_false_or_eq_true s.StaticAction with hs | hs
  · rw [Block_static hs]; exact hb
  · rw [Block_free hs]; exact ⟨hb.active, hb.pending⟩

theorem Inv_and_BufferInv_of_reachable {s : State} (h : Reachable s) : Inv s ∧ BufferInv s := by
  induction h with
  | init => exact ⟨Inv_BeginPlay, BufferInv_BeginPlay⟩
  | tick dt v _ h ih => exact ⟨Inv_Tick ih.1 h, BufferInv_Tick ih.1 ih.2 h⟩
  | light _ h ih => exact ⟨Inv_LightAttack ih.1 h, BufferInv_LightAttack ih.1 ih.2 h⟩
  | heavy _ h ih => exact ⟨Inv_HeavyAttack ih.1 h, BufferInv_HeavyAttack ih.1 ih.2 h⟩
  | block b _ ih => exact ⟨Inv_Block ih.1 b, BufferInv_Block ih.2 b⟩
  | sprint b _ ih => exact ⟨Inv_SprintingFlag ih.1 b, ⟨ih.2.active, ih.2.pending⟩⟩

/-- The frame in which the timer enters the window with a heavy request buffered starts the
next heavy step. -/
theorem Tick_fires_heavy {s : State} (hs : s.StaticAction = true)
    (hb : s.AdditionalAttackBuffer = true) (hty : s.CurrentAttackType = "Heavy")
    (hL : s.LightAttackIndex = 0) (hH : s.HeavyAttackIndex < HeavyAttackChainLength)
    {dt : ℚ} (ht : 0 < s.StaticActionDurationTimer - dt)
    (hw : s.StaticActionDurationTimer - dt ≤ s.AdditionalAttackBufferTiming) (v : FVector) :
    ∃ d, HeavyAttackTimings.get? s.HeavyAttackIndex = some d ∧
      Tick s dt v = some (heavyStarted (countdown s dt) d) := by
  obtain ⟨d, hd, -, e⟩ :=
    HeavyAttack_started (s := countdown s dt) hL hH hw
  refine ⟨d, hd, ?_⟩
  have hnl : ¬ s.CurrentAttackType = "Light" := by rw [hty]; decide
  rw [Tick_fired hs ht hw hb, if_neg hnl, if_pos hty, e]

/-- The light counterpart, with the duration read from the timing array. -/
theorem Tick_fires_light_get {s : State} (hs : s.StaticAction = true)
    (hb : s.AdditionalAttackBuffer = true) (hty : s.CurrentAttackType = "Light")
    (hH : s.HeavyAttackIndex = 0) (hL : s.LightAttackIndex < LightAttackChainLength)
    {dt : ℚ} (ht : 0 < s.StaticActionDurationTimer - dt)
    (hw : s.StaticActionDurationTimer - dt ≤ s.AdditionalAttackBufferTiming) (v : FVector) :
    ∃ d, LightAttackTimings.get? s.LightAttackIndex = some d ∧
      Tick s dt v = some (lightStarted (countdown s dt) d) := by
  obtain ⟨d, hd, -, e⟩ :=
    LightAttack_started (s := countdown s dt) hH hL hw
  refine ⟨d, hd, ?_⟩
  rw [Tick_fired hs ht hw hb, if_pos hty, e]

/-- C18 (as the code behaves): in a reachable state with a light attack buffered, a heavy
request is ignored (the light chain is active, so the guard of `HeavyAttack` fails): the state
is unchanged, `CurrentAttackType` stays Light, and the attack later fired from the buffer is
the next light step; symmetrically a light request during a buffered heavy attack is ignored
and the buffer fires the next heavy step. -/
theorem C18_buffer_keeps_its_type (s : State) (h : Reachable s)
    (hb : s.AdditionalAttackBuffer = true) :
    (s.CurrentAttackType = "Light" →
      HeavyAttack s = some s ∧
      ∀ dt v, 0 < s.StaticActionDurationTimer - dt →
        s.StaticActionDurationTimer - dt ≤ s.AdditionalAttackBufferTiming →
        ∃ q, Tick s dt v = some q ∧ q.CurrentAttackType = "Light" ∧
          q.LightAttackIndex = s.LightAttackIndex + 1 ∧ q.HeavyAttackIndex = 0 ∧
          q.PlayerAction = "LightAttack_" ++ toString s.LightAttackIndex) ∧
    (s.CurrentAttackType = "Heavy" →
      LightAttack s = some s ∧
      ∀ dt v, 0 < s.StaticActionDurationTimer - dt →
        s.StaticActionDurationTimer - dt ≤ s.AdditionalAttackBufferTiming →
        ∃ q, Tick s dt v = some q ∧ q.CurrentAttackType = "Heavy" ∧
          q.HeavyAttackIndex = s.HeavyAttackIndex + 1 ∧ q.LightAttackIndex = 0 ∧
          q.PlayerAction = "HeavyAttack_" ++ toString s.HeavyAttackIndex) := by
  obtain ⟨hi, hbi⟩ := Inv_and_BufferInv_of_reachable h
  have hst : s.StaticAction = true := by
    rcases Bool.eq_false_or_eq_true s.StaticAction with hs | hs
    · exact hs
    · obtain ⟨l0, h0, -⟩ := hi.idle hs
      rcases hbi.pending hb with ⟨-, hp, -, -⟩ | ⟨-, hp, -, -⟩ <;> omega
  constructor
  · intro hty
    have hnh : ¬ s.CurrentAttackType = "Heavy" := by rw [hty]; decide
    rcases hbi.pending hb with ⟨-, hp, hlt, h0⟩ | ⟨hty', -⟩
    · refine ⟨HeavyAttack_ignored (fun hg => by omega), fun dt v hpos hw => ?_⟩
      obtain ⟨d, -, e⟩ := Tick_fires_light_get hst hb hty h0 hlt hpos hw v
      exact ⟨_, e, rfl, rfl, h0, rfl⟩
    · exact absurd hty' hnh
  · intro hty
    have hnl : ¬ s.CurrentAttackType = "Light" := by rw [hty]; decide
    rcases hbi.pending hb with ⟨hty', -⟩ | ⟨-, hp, hlt, h0⟩
    · exact absurd hty' hnl
    · refine ⟨LightAttack_ignored (fun hg => by omega), fun dt v hpos hw => ?_⟩
      obtain ⟨d, -, e⟩ := Tick_fires_heavy hst hb hty h0 hlt hpos hw v
      exact ⟨_, e, rfl, rfl, h0, rfl⟩


theorem LightAttack_lightStep0 : LightAttack lightStep0 = some lightStep0Buffered :=
  LightAttack_buffered rfl (by decide)
    (by norm_num [lightStep0, lightStarted, AttackBufferTimingMulti])

theorem Reachable_lightStep0Buffered : Reachable lightStep0Buffered :=
  ReachableFrom.light Reachable_lightStep0 LightAttack_lightStep0

/-- Witness for C18: with a light attack buffered during light step 0, a heavy request changes
nothing and the frame that reaches the window starts light step 1. -/
theorem C18_buffer_keeps_its_type_witness :
    Reachable lightStep0Buffered ∧ lightStep0Buffered.AdditionalAttackBuffer = true ∧
    HeavyAttack lightStep0Buffered = some lightStep0Buffered ∧
    ∃ q, Tick lightStep0Buffered (1 / 2) FVector.zero = some q ∧
      q.CurrentAttackType = "Light" ∧ q.LightAttackIndex = 2 := by
  obtain ⟨h1, k⟩ := (C18_buffer_keeps_its_type lightStep0Buffered
    Reachable_lightStep0Buffered rfl).1 rfl
  obtain ⟨q, e, q1, q2, -, -⟩ := k (1 / 2) FVector.zero
    (by norm_num [lightStep0Buffered, lightStep0, lightStarted])
    (by norm_num [lightStep0Buffered, lightStep0, lightStarted, AttackBufferTimingMulti])
  exact ⟨Reachable_lightStep0Buffered, rfl, h1, q, e, q1, q2⟩

/-- Counterexample to C18 as stated: in the reachable state with a light attack buffered during
light step 0, a heavy request leaves the state as it is, so `CurrentAttackType` is still
Light and not Heavy; the attack then fired from the buffer is light step 1. -/
theorem C18_counterexample :
    Reachable lightStep0Buffered ∧ lightStep0Buffered.AdditionalAttackBuffer = true ∧
    lightStep0Buffered.CurrentAttackType = "Light" ∧
    HeavyAttack lightStep0Buffered = some lightStep0Buffered ∧
    lightStep0Buffered.CurrentAttackType ≠ "Heavy" ∧
    ∃ q, Tick lightStep0Buffered (1 / 2) FVector.zero = some q ∧
      q.CurrentAttackType = "Light" ∧ q.PlayerAction = "LightAttack_1" ∧
      q.LightAttackIndex = 2 ∧ q.HeavyAttackIndex = 0 := by
  refine ⟨Reachable_lightStep0Buffered, rfl, rfl,
    HeavyAttack_ignored (fun hg => absurd hg.1 (by decide)), by decide, ?_⟩
  obtain ⟨d, -, e⟩ := Tick_fires_light_get (s := lightStep0Buffered) rfl rfl rfl rfl
    (by decide) (by norm_num [lightStep0Buffered, lightStep0, lightStarted] :
      (0 : ℚ) < lightStep0Buffered.StaticActionDurationTimer - 1 / 2)
    (by norm_num [lightStep0Buffered, lightStep0, lightStarted, AttackBufferTimingMulti])
    FVector.zero
  exact ⟨_, e, rfl, (by decide : "LightAttack_" ++ toString (1 : Nat) = "LightAttack_1"),
    rfl, rfl⟩


/-! ## The timer over a frame -/

theorem Tick_lightStep0Buffered :
    Tick lightStep0Buffered (2 / 5) FVector.zero = some lightStep0Late :=
  Tick_running rfl (by norm_num [lightStep0Buffered, lightStep0, lightStarted])
    (by norm_num [lightStep0Buffered, lightStep0, lightStarted, AttackBufferTimingMulti])
    FVector.zero

theorem Reachable_lightStep0Late : Reachable lightStep0Late :=
  ReachableFrom.tick (2 / 5) FVector.zero Reachable_lightStep0Buffered Tick_lightStep0Buffered

/-- C19 (as the code behaves): in a reachable state, a `Tick` with `deltaTime >= 0` leaves the
timer at or below its previous value unless it fires the buffered attack (a request is
buffered and the counted-down timer is above 0 and at or below the window); a `Tick` that
fires the buffered attack sets the timer to the duration of the step it starts. -/
theorem C19_timer_over_a_tick (s : State) (h : Reachable s) (dt : ℚ) (v : FVector)
    (hdt : 0 ≤ dt) :
    ∃ s', Tick s dt v = some s' ∧
      (¬(s.AdditionalAttackBuffer = true ∧ 0 < s.StaticActionDurationTimer - dt ∧
          s.StaticActionDurationTimer - dt ≤ s.AdditionalAttackBufferTiming) →
        s'.StaticActionDurationTimer ≤ s.StaticActionDurationTimer) ∧
      (s.AdditionalAttackBuffer = true → 0 < s.StaticActionDurationTimer - dt →
        s.StaticActionDurationTimer - dt ≤ s.AdditionalAttackBufferTiming →
        (s.CurrentAttackType = "Light" ∧
          LightAttackTimings.get? s.LightAttackIndex = some s'.StaticActionDurationTimer ∧
          s'.LightAttackIndex = s.LightAttackIndex + 1) ∨
        (s.CurrentAttackType = "Heavy" ∧
          HeavyAttackTimings.get? s.HeavyAttackIndex = some s'.StaticActionDurationTimer ∧
          s'.HeavyAttackIndex = s.HeavyAttackIndex + 1)) := by
  obtain ⟨hi, hbi⟩ := Inv_and_BufferInv_of_reachable h
  rcases Bool.eq_false_or_eq_true s.StaticAction with hs | hs
  · by_cases hz : s.StaticActionDurationTimer - dt ≤ 0
    · refine ⟨_, Tick_ended hs hz v, fun _ => hi.timer_nonneg, fun _ hpos _ => ?_⟩
      exact absurd hpos (not_lt.mpr hz)
    · have hz' : 0 < s.StaticActionDurationTimer - dt := not_le.mp hz
      by_cases hw : s.StaticActionDurationTimer - dt ≤ s.AdditionalAttackBufferTiming
          ∧ s.AdditionalAttackBuffer = true
      · rcases hbi.pending hw.2 with ⟨hty, -, hlt, h0⟩ | ⟨hty, -, hlt, h0⟩
        · obtain ⟨d, hd, e⟩ := Tick_fires_light_get hs hw.2 hty h0 hlt hz' hw.1 v
          refine ⟨_, e, fun hn => absurd ⟨hw.2, hz', hw.1⟩ hn, fun _ _ _ => ?_⟩
          exact Or.inl ⟨hty, hd, rfl⟩
        · obtain ⟨d, hd, e⟩ := Tick_fires_heavy hs hw.2 hty h0 hlt hz' hw.1 v
          refine ⟨_, e, fun hn => absurd ⟨hw.2, hz', hw.1⟩ hn, fun _ _ _ => ?_⟩
          exact Or.inr ⟨hty, hd, rfl⟩
      · refine ⟨_, Tick_running hs hz' hw v, fun _ => ?_, fun hb _ hle => ?_⟩
        · show s.StaticActionDurationTimer - dt ≤ s.StaticActionDurationTimer
          linarith
        · exact absurd ⟨hle, hb⟩ hw
  · refine ⟨_, Tick_free hs dt v, fun _ => ?_, fun hb => ?_⟩
    · have hc := combat_resolveFree s dt v
      simp only [combat, Prod.mk.injEq] at hc
      exact le_of_eq hc.2.1
    · obtain ⟨l0, h0, -⟩ := hi.idle hs
      rcases hbi.pending hb with ⟨-, hp, -, -⟩ | ⟨-, hp, -, -⟩ <;> omega

/-- Witness for C19: a tenth of a second of light step 0 takes the timer from 1 to 0.9. -/
theorem C19_timer_over_a_tick_witness :
    Reachable lightStep0 ∧
    ∃ s', Tick lightStep0 (1 / 10) FVector.zero = some s' ∧
      s'.StaticActionDurationTimer ≤ lightStep0.StaticActionDurationTimer := by
  obtain ⟨s', e, k, -⟩ := C19_timer_over_a_tick lightStep0 Reachable_lightStep0 (1 / 10)
    FVector.zero (by norm_num)
  exact ⟨Reachable_lightStep0, s', e, k (fun hc => absurd hc.1 (by decide))⟩

/-- Counterexample to C19 as stated: 0.4 s into light step 0 with a light attack buffered the
timer is 0.6 and the window 0.5; a frame of 0.1 s brings the timer to the window, the buffered
attack fires and the timer becomes the duration 0.7 of light step 1, above the 0.6 it had
before the `Tick`. -/
theorem C19_counterexample :
    Reachable lightStep0Late ∧ (0 : ℚ) ≤ 1 / 10 ∧
    lightStep0Late.StaticActionDurationTimer = 3 / 5 ∧
    ∃ s', Tick lightStep0Late (1 / 10) FVector.zero = some s' ∧
      s'.StaticActionDurationTimer = 7 / 10 ∧
      lightStep0Late.StaticActionDurationTimer < s'.StaticActionDurationTimer := by
  have ht : lightStep0Late.StaticActionDurationTimer = 3 / 5 := by
    norm_num [lightStep0Late, countdown, lightStep0Buffered, lightStep0, lightStarted]
  refine ⟨Reachable_lightStep0Late, by norm_num, ht, ?_⟩
  obtain ⟨d, hd, e⟩ := Tick_fires_light_get (s := lightStep0Late) rfl rfl rfl rfl
    (by decide) (by rw [ht]; norm_num :
      (0 : ℚ) < lightStep0Late.StaticActionDurationTimer - 1 / 10)
    (by rw [ht]; norm_num [lightStep0Late, countdown, lightStep0Buffered, lightStep0,
      lightStarted, AttackBufferTimingMulti])
    FVector.zero
  have hd7 : d = 7 / 10 := by
    have h1 : LightAttackTimings.get? 1 = some d := hd
    simp [LightAttackTimings] at h1
    exact h1.symm
  subst hd7
  refine ⟨_, e, rfl, ?_⟩
  rw [ht]
  show (3 / 5 : ℚ) < 7 / 10
  norm_num


/-! ## The two-entry tables of the "Action" control state -/

/-- With the camera locked on, the shake block is skipped and both targets are entry 1. -/
theorem resolveFree_action_focus (s : State) (dt : ℚ) (v : FVector)
    (hm : s.PlayerControlState = "Action") (hc : s.CameraState = "Focus") :
    (resolveFree s dt v).DesiredArmLength = ArmLengths_Action 1 ∧
    (resolveFree s dt v).DesiredBoomSocketOffset = BoomSocketOffset_Action 1 := by
  obtain ⟨-, f2, -, -, -, f6⟩ := beforeShake_fields s dt v
  have hne : ¬ s.PlayerControlState = "Slow" := by rw [hm]; decide
  rw [if_neg hne, if_pos hm, if_pos hc] at f6
  have hna : ¬((beforeShake s dt v).PlayerControlState = "Action" ∧
      (beforeShake s dt v).CameraState = "Free") := by
    rw [f2, hc]
    intro h
    exact absurd h.2 (by decide)
  have hres : resolveFree s dt v = resolveOffset (beforeShake s dt v) dt := by
    show resolveOffset (resolveShake (beforeShake s dt v) dt) dt = _
    unfold resolveShake
    rw [if_neg hna]
  constructor
  · rw [resolveFree_DesiredArmLength, targetArm_eq, if_neg hne, if_pos hm, if_pos hc]
  · rw [hres]; exact f6

/-- With a free camera and the character at rest, nothing is shaken and both targets are
entry 0. -/
theorem resolveFree_action_free_idle (s : State) (dt : ℚ)
    (hm : s.PlayerControlState = "Action") (hc : s.CameraState = "Free") :
    (resolveFree s dt ⟨0, 0, 0⟩).DesiredArmLength = ArmLengths_Action 0 ∧
    (resolveFree s dt ⟨0, 0, 0⟩).DesiredBoomSocketOffset = BoomSocketOffset_Action 0 := by
  obtain ⟨f1, f2, -, f4, -, f6⟩ := beforeShake_fields s dt ⟨0, 0, 0⟩
  have hne : ¬ s.PlayerControlState = "Slow" := by rw [hm]; decide
  have hnf : ¬ s.CameraState = "Focus" := by rw [hc]; decide
  rw [if_neg hne, if_pos hm, if_neg hnf] at f6
  have hpa : (resolveAction s ⟨0, 0, 0⟩).PlayerAction = "Idle" := by
    unfold resolveAction; rw [if_pos rfl]
  rw [hpa] at f4
  obtain ⟨-, -, g3, g4⟩ := shakeClamp_fields ({ beforeShake s dt ⟨0, 0, 0⟩ with
    CamShakeTiming := (beforeShake s dt ⟨0, 0, 0⟩).CamShakeTiming
      + shakeIncrement (beforeShake s dt ⟨0, 0, 0⟩) dt } : State)
  have hres : resolveFree s dt ⟨0, 0, 0⟩ = resolveOffset (shakeTarget (shakeClampLow
      (shakeClampHigh ({ beforeShake s dt ⟨0, 0, 0⟩ with
        CamShakeTiming := (beforeShake s dt ⟨0, 0, 0⟩).CamShakeTiming
          + shakeIncrement (beforeShake s dt ⟨0, 0, 0⟩) dt } : State)))) dt := by
    show resolveOffset (resolveShake (beforeShake s dt ⟨0, 0, 0⟩) dt) dt = _
    unfold resolveShake
    rw [if_pos ⟨f1.trans hm, f2.trans hc⟩]
  have hidle : ¬("Idle" = "Moving" ∨ "Idle" = "Sprinting") := by decide
  have hsh : ∀ z : State, z.PlayerAction = "Idle" →
      (shakeTarget z).DesiredBoomSocketOffset = z.DesiredBoomSocketOffset := by
    intro z hz
    unfold shakeTarget ShakenBoomSocketOffset
    rw [hz, if_neg hidle, if_neg (by simp)]
  constructor
  · rw [resolveFree_DesiredArmLength, targetArm_eq, if_neg hne, if_pos hm, if_neg hnf]
  · rw [hres]
    show (shakeTarget _).DesiredBoomSocketOffset = _
    rw [hsh _ (g3.trans f4), g4]
    exact f6

/-- C20, the code at the inputs where it departs from the header: in the "Action" control
state with `CameraState` "Free" a `Tick` selects `ArmLengths_Action[0]` and
`BoomSocketOffset_Action[0]` (the header documents entry 1 for "Free"), and with `CameraState`
"Focus", which is not "Free", it selects entry 1 of both tables (the header documents
entry 0). -/
theorem C20_action_tables_as_coded :
    (actionFree.PlayerControlState = "Action" ∧ actionFree.CameraState = "Free" ∧
      ∃ s', Tick actionFree (1 / 60) ⟨0, 0, 0⟩ = some s' ∧
        s'.DesiredArmLength = ArmLengths_Action 0 ∧
        s'.DesiredBoomSocketOffset = BoomSocketOffset_Action 0 ∧
        s'.DesiredArmLength ≠ ArmLengths_Action 1 ∧
        s'.DesiredBoomSocketOffset ≠ BoomSocketOffset_Action 1) ∧
    (actionFocus.PlayerControlState = "Action" ∧ actionFocus.CameraState ≠ "Free" ∧
      ∃ s', Tick actionFocus (1 / 60) ⟨0, 0, 0⟩ = some s' ∧
        s'.DesiredArmLength = ArmLengths_Action 1 ∧
        s'.DesiredBoomSocketOffset = BoomSocketOffset_Action 1 ∧
        s'.DesiredArmLength ≠ ArmLengths_Action 0 ∧
        s'.DesiredBoomSocketOffset ≠ BoomSocketOffset_Action 0) := by
  have harm : ArmLengths_Action 0 ≠ ArmLengths_Action 1 := by
    norm_num [ArmLengths_Action]
  have hoff : BoomSocketOffset_Action 0 ≠ BoomSocketOffset_Action 1 := by
    intro h
    have := congrArg FVector.Z h
    norm_num [BoomSocketOffset_Action] at this
  obtain ⟨a1, a2⟩ := resolveFree_action_free_idle actionFree (1 / 60) rfl rfl
  obtain ⟨b1, b2⟩ := resolveFree_action_focus actionFocus (1 / 60) ⟨0, 0, 0⟩ rfl rfl
  refine ⟨⟨rfl, rfl, _, Tick_free rfl _ _, a1, a2, ?_, ?_⟩,
    ⟨rfl, by decide, _, Tick_free rfl _ _, b1, b2, ?_, ?_⟩⟩
  · rw [a1]; exact harm
  · rw [a2]; exact hoff
  · rw [b1]; exact harm.symm
  · rw [b2]; exact hoff.symm


/-! ## Index safety, frame of the static branch, and the lost request -/

/-- C21: in every reachable state `0 <= LightAttackIndex <= 5` and
`0 <= HeavyAttackIndex <= 3`; the timing arrays have exactly chain-length entries; no request
and no `Tick` fails on a timing read; and whenever a request or the buffered path of a `Tick`
starts a step (the chain index grows by one), the index read was strictly below the array
length. -/
theorem C21_indices_in_range (s : State) (h : Reachable s) :
    (0 ≤ s.LightAttackIndex ∧ s.LightAttackIndex ≤ LightAttackChainLength) ∧
    (0 ≤ s.HeavyAttackIndex ∧ s.HeavyAttackIndex ≤ HeavyAttackChainLength) ∧
    LightAttackChainLength = 5 ∧ HeavyAttackChainLength = 3 ∧
    LightAttackTimings.length = LightAttackChainLength ∧
    HeavyAttackTimings.length = HeavyAttackChainLength ∧
    (∃ s', LightAttack s = some s' ∧
      (s'.LightAttackIndex = s.LightAttackIndex + 1 →
        s.LightAttackIndex < LightAttackTimings.length ∧
        ∃ d, LightAttackTimings.get? s.LightAttackIndex = some d)) ∧
    (∃ s', HeavyAttack s = some s' ∧
      (s'.HeavyAttackIndex = s.HeavyAttackIndex + 1 →
        s.HeavyAttackIndex < HeavyAttackTimings.length ∧
        ∃ d, HeavyAttackTimings.get? s.HeavyAttackIndex = some d)) ∧
    ∀ dt v, ∃ s', Tick s dt v = some s' ∧
      (s'.LightAttackIndex = s.LightAttackIndex + 1 →
        s.LightAttackIndex < LightAttackTimings.length ∧
        ∃ d, LightAttackTimings.get? s.LightAttackIndex = some d) ∧
      (s'.HeavyAttackIndex = s.HeavyAttackIndex + 1 →
        s.HeavyAttackIndex < HeavyAttackTimings.length ∧
        ∃ d, HeavyAttackTimings.get? s.HeavyAttackIndex = some d) := by
  have hi := Inv_of_reachable h
  have hlen : LightAttackTimings.length = LightAttackChainLength := rfl
  have hlen' : HeavyAttackTimings.length = HeavyAttackChainLength := rfl
  have light_ok : ∀ s' : State, Reachable s' → s'.LightAttackIndex = s.LightAttackIndex + 1 →
      s.LightAttackIndex < LightAttackTimings.length ∧
      ∃ d, LightAttackTimings.get? s.LightAttackIndex = some d := by
    intro s' hr he
    have hle := (Inv_of_reachable hr).light_le
    have hlt : s.LightAttackIndex < LightAttackChainLength := by omega
    exact ⟨by rw [hlen]; exact hlt, LightAttackTimings_get hlt⟩
  have heavy_ok : ∀ s' : State, Reachable s' → s'.HeavyAttackIndex = s.HeavyAttackIndex + 1 →
      s.HeavyAttackIndex < HeavyAttackTimings.length ∧
      ∃ d, HeavyAttackTimings.get? s.HeavyAttackIndex = some d := by
    intro s' hr he
    have hle := (Inv_of_reachable hr).heavy_le
    have hlt : s.HeavyAttackIndex < HeavyAttackChainLength := by omega
    exact ⟨by rw [hlen']; exact hlt, HeavyAttackTimings_get hlt⟩
  refine ⟨⟨Nat.zero_le _, hi.light_le⟩, ⟨Nat.zero_le _, hi.heavy_le⟩, rfl, rfl, hlen, hlen',
    ?_, ?_, fun dt v => ?_⟩
  · obtain ⟨s', e⟩ := LightAttack_total s
    exact ⟨s', e, light_ok s' (ReachableFrom.light h e)⟩
  · obtain ⟨s', e⟩ := HeavyAttack_total s
    exact ⟨s', e, heavy_ok s' (ReachableFrom.heavy h e)⟩
  · obtain ⟨s', e⟩ := Tick_total s dt v
    exact ⟨s', e, light_ok s' (ReachableFrom.tick dt v h e),
      heavy_ok s' (ReachableFrom.tick dt v h e)⟩

/-- Witness for C21 at light step 0 with a request buffered: the frame that reaches the window
starts light step 1, reading the timing array at index 1. -/
theorem C21_indices_in_range_witness :
    Reachable lightStep0Buffered ∧ lightStep0Buffered.LightAttackIndex ≤ 5 ∧
    ∃ s', Tick lightStep0Buffered (1 / 2) FVector.zero = some s' ∧
      s'.LightAttackIndex = lightStep0Buffered.LightAttackIndex + 1 ∧
      lightStep0Buffered.LightAttackIndex < LightAttackTimings.length := by
  obtain ⟨⟨-, hle⟩, -, -, -, -, -, -, -, k⟩ :=
    C21_indices_in_range lightStep0Buffered Reachable_lightStep0Buffered
  obtain ⟨s', e, k1, -⟩ := k (1 / 2) FVector.zero
  obtain ⟨d, -, e'⟩ := Tick_fires_light_get (s := lightStep0Buffered) rfl rfl rfl rfl
    (by decide) (by norm_num [lightStep0Buffered, lightStep0, lightStarted] :
      (0 : ℚ) < lightStep0Buffered.StaticActionDurationTimer - 1 / 2)
    (by norm_num [lightStep0Buffered, lightStep0, lightStarted, AttackBufferTimingMulti])
    FVector.zero
  have hs' : s' = lightStarted (countdown lightStep0Buffered (1 / 2)) d :=
    Option.some.inj (e.symm.trans e')
  have hidx : s'.LightAttackIndex = lightStep0Buffered.LightAttackIndex + 1 := by
    rw [hs']; rfl
  exact ⟨Reachable_lightStep0Buffered, hle, s', e, hidx, (k1 hidx).1⟩


/-- The sprint flag survives a `Tick` of the static branch; `Blocking` survives it or is
cleared by a step that the buffered path starts. -/
theorem combat_Tick_static {s s' : State} (hs : s.StaticAction = true) {dt : ℚ} {v : FVector}
    (h : Tick s dt v = some s') :
    s'.isSprinting = s.isSprinting ∧ (s'.Blocking = s.Blocking ∨ s'.Blocking = false) := by
  have hl : ∀ x y : State, LightAttack x = some y →
      y.isSprinting = x.isSprinting ∧ (y.Blocking = x.Blocking ∨ y.Blocking = false) := by
    intro x y hxy
    rcases LightAttack_cases x with e | e | ⟨d, -, -, -, e⟩ <;> rw [e] at hxy <;> cases hxy
    · exact ⟨rfl, Or.inl rfl⟩
    · exact ⟨rfl, Or.inl rfl⟩
    · exact ⟨rfl, Or.inr rfl⟩
  have hh : ∀ x y : State, HeavyAttack x = some y →
      y.isSprinting = x.isSprinting ∧ (y.Blocking = x.Blocking ∨ y.Blocking = false) := by
    intro x y hxy
    rcases HeavyAttack_cases x with e | e | ⟨d, -, -, -, e⟩ <;> rw [e] at hxy <;> cases hxy
    · exact ⟨rfl, Or.inl rfl⟩
    · exact ⟨rfl, Or.inl rfl⟩
    · exact ⟨rfl, Or.inr rfl⟩
  by_cases ht : s.StaticActionDurationTimer - dt ≤ 0
  · rw [Tick_ended hs ht] at h; cases h; exact ⟨rfl, Or.inl rfl⟩
  · have ht' : 0 < s.StaticActionDurationTimer - dt := not_le.mp ht
    by_cases hb : s.StaticActionDurationTimer - dt ≤ s.AdditionalAttackBufferTiming
        ∧ s.AdditionalAttackBuffer = true
    · rw [Tick_fired hs ht' hb.1 hb.2] at h
      split_ifs at h
      · exact hl (countdown s dt) s' h
      · exact hh (countdown s dt) s' h
      · cases h; exact ⟨rfl, Or.inl rfl⟩
    · rw [Tick_running hs ht' hb] at h; cases h; exact ⟨rfl, Or.inl rfl⟩

/-- C22: during a static action the locomotion and camera resolver does not run: a `Tick`
leaves the move speed, the current and desired camera arm length, the current and desired
socket offset, `CamShakeTiming`, `CamShakeRising`, `Blocking` and the sprint flag unchanged,
for every frame time and every state of the data model (one that satisfies the invariant
"`Blocking` implies no static action"), hence in every reachable state. The fields other than
`Blocking` are unchanged without that invariant. -/
theorem C22_static_tick_frame (s : State) (dt : ℚ) (v : FVector)
    (hs : s.StaticAction = true) :
    ∃ s', Tick s dt v = some s' ∧
      s'.MaxWalkSpeed = s.MaxWalkSpeed ∧
      s'.TargetArmLength = s.TargetArmLength ∧ s'.DesiredArmLength = s.DesiredArmLength ∧
      s'.SocketOffset = s.SocketOffset ∧
      s'.DesiredBoomSocketOffset = s.DesiredBoomSocketOffset ∧
      s'.CamShakeTiming = s.CamShakeTiming ∧ s'.CamShakeRising = s.CamShakeRising ∧
      s'.isSprinting = s.isSprinting ∧
      ((s.Blocking = true → s.StaticAction = false) → s'.Blocking = s.Blocking) ∧
      (Reachable s → s'.Blocking = s.Blocking) := by
  obtain ⟨s', e⟩ := Tick_total s dt v
  have hc := camera_Tick_static hs e
  simp only [camera, Prod.mk.injEq] at hc
  obtain ⟨c1, c2, c3, c4, c5, c6, c7, -, -⟩ := hc
  obtain ⟨hsp, hbl⟩ := combat_Tick_static hs e
  have hkeep : (s.Blocking = true → s.StaticAction = false) → s'.Blocking = s.Blocking := by
    intro hwf
    have hb : s.Blocking = false := by
      rcases Bool.eq_false_or_eq_true s.Blocking with hb | hb
      · have := hwf hb
        rw [hs] at this; cases this
      · exact hb
    rcases hbl with h1 | h1
    · exact h1
    · rw [h1, hb]
  exact ⟨s', e, c7, c3, c4, c5, c6, c1, c2, hsp, hkeep,
    fun hr => hkeep (Inv_of_reachable hr).block⟩

/-- Witness for C22: a frame of light step 0 that fires the buffered attack leaves the camera,
the move speed, the sprint flag and `Blocking` as they were. -/
theorem C22_static_tick_frame_witness :
    lightStep0Buffered.StaticAction = true ∧ Reachable lightStep0Buffered ∧
    ∃ s', Tick lightStep0Buffered (1 / 2) FVector.zero = some s' ∧
      s'.LightAttackIndex = 2 ∧
      s'.MaxWalkSpeed = lightStep0Buffered.MaxWalkSpeed ∧
      s'.TargetArmLength = lightStep0Buffered.TargetArmLength ∧
      s'.CamShakeRising = lightStep0Buffered.CamShakeRising ∧
      s'.isSprinting = lightStep0Buffered.isSprinting ∧
      s'.Blocking = lightStep0Buffered.Blocking := by
  obtain ⟨s', e, h1, h2, -, -, -, -, h7, h8, -, h10⟩ :=
    C22_static_tick_frame lightStep0Buffered (1 / 2) FVector.zero rfl
  obtain ⟨d, -, e'⟩ := Tick_fires_light_get (s := lightStep0Buffered) rfl rfl rfl rfl
    (by decide) (by norm_num [lightStep0Buffered, lightStep0, lightStarted] :
      (0 : ℚ) < lightStep0Buffered.StaticActionDurationTimer - 1 / 2)
    (by norm_num [lightStep0Buffered, lightStep0, lightStarted, AttackBufferTimingMulti])
    FVector.zero
  have hs' : s' = lightStarted (countdown lightStep0Buffered (1 / 2)) d :=
    Option.some.inj (e.symm.trans e')
  have hidx : s'.LightAttackIndex = 2 := by rw [hs']; rfl
  exact ⟨rfl, Reachable_lightStep0Buffered, s', e, hidx, h1, h2, h7, h8,
    h10 Reachable_lightStep0Buffered⟩

/-- C23: during a static action with a request buffered and the timer above the window, a
`Tick` whose frame time is at least the remaining timer starts no step (tag and trigger are
untouched): it ends the static action, sets both chain indices and the timer to 0 and clears
the buffer; the request is lost, for no later run of frames starts a step either. -/
theorem C23_jumped_window_drops_request (s : State) (dt : ℚ) (v : FVector)
    (hs : s.StaticAction = true) (_hb : s.AdditionalAttackBuffer = true)
    (_hw : s.AdditionalAttackBufferTiming < s.StaticActionDurationTimer)
    (hdt : s.StaticActionDurationTimer ≤ dt) :
    ∃ s', Tick s dt v = some s' ∧ s'.StaticAction = false ∧
      s'.LightAttackIndex = 0 ∧ s'.HeavyAttackIndex = 0 ∧
      s'.AdditionalAttackBuffer = false ∧ s'.AdditionalAttackBufferTiming = 0 ∧
      s'.StaticActionDurationTimer = 0 ∧
      s'.PlayerAction = s.PlayerAction ∧
      s'.AttackMechanicsTrigger = s.AttackMechanicsTrigger ∧
      s'.CurrentAttackType = s.CurrentAttackType ∧
      ∀ fs, ∃ r, Ticks s' fs = some r ∧ r.StaticAction = false ∧
        r.LightAttackIndex = 0 ∧ r.HeavyAttackIndex = 0 ∧
        r.AdditionalAttackBuffer = false := by
  have ht : s.StaticActionDurationTimer - dt ≤ 0 := by linarith
  refine ⟨_, Tick_ended hs ht v, rfl, rfl, rfl, rfl, rfl, rfl, rfl, rfl, rfl, fun fs => ?_⟩
  obtain ⟨r, hr⟩ := Ticks_total (staticEnded s) fs
  have hc := Ticks_idle (s := staticEnded s) rfl hr
  simp only [combat, Prod.mk.injEq] at hc
  obtain ⟨h1, -, h3, h4, h5, -⟩ := hc
  exact ⟨r, hr, h1, h3, h4, h5⟩

/-- Witness for C23: light step 0 with a request buffered (timer 1, window 0.5) and a
one-second frame. -/
theorem C23_jumped_window_drops_request_witness :
    lightStep0Buffered.AdditionalAttackBuffer = true ∧
    ∃ s', Tick lightStep0Buffered 1 FVector.zero = some s' ∧ s'.StaticAction = false ∧
      s'.LightAttackIndex = 0 ∧ s'.AdditionalAttackBuffer = false ∧
      s'.PlayerAction = "LightAttack_0" := by
  obtain ⟨s', e, h1, h2, -, h4, -, -, h7, -, -, -⟩ :=
    C23_jumped_window_drops_request lightStep0Buffered 1 FVector.zero rfl rfl
      (by norm_num [lightStep0Buffered, lightStep0, lightStarted, AttackBufferTimingMulti])
      (by norm_num [lightStep0Buffered, lightStep0, lightStarted])
  refine ⟨rfl, s', e, h1, h2, h4, h7.trans ?_⟩
  decide

end HLtC
